import Mathlib

/-!
Verification of the dotfiles bootstrap script (`setup.py`).

The script is shallowly embedded: the POSIX filesystem is a finite
association list from paths to entries, paths are lists of components,
and the Python library calls used by the script (`os.path.exists`,
`os.path.islink`, `os.makedirs`, `os.unlink`, `os.symlink`,
`shutil.move` / `os.rename`, `subprocess.run`) are given explicit
executable semantics.  External processes are modelled by an oracle
assigning an exit code to each argument vector; their filesystem
side effects are not modelled (the lone exception is the Windows
`mklink` shell-out, whose effect *is* a link creation).

Modelling conventions:
* Symbolic links are leaf objects: path resolution follows a symlink
  only at the final component of a path; ancestor directories are taken
  literally.  The script only ever creates and inspects leaf links.
* Machine-level failures (permissions, I/O errors) are out of scope;
  the failure modes modelled are exactly the structural ones the
  library calls document (missing source, occupied destination,
  non-directory ancestor, dangling link).
-/

namespace Dotfiles

/-- Filesystem paths, as lists of components (no separators, no empty
trailing component).  The empty list is the root directory. -/
abbrev FsPath := List String

/-- One filesystem object: a regular file with its content, a directory,
or a symbolic link storing its destination path. -/
inductive Entry where
  | file (content : String)
  | dir
  | symlink (dest : FsPath)
deriving DecidableEq, Repr

/-- A filesystem: a finite map from paths to entries, as an association
list (first binding wins). -/
structure FS where
  entries : List (FsPath × Entry)
deriving DecidableEq, Repr

/-- Lookup in an association list of filesystem entries. -/
def lookupPath : List (FsPath × Entry) → FsPath → Option Entry
  | [], _ => none
  | (k, e) :: rest, p => if p = k then some e else lookupPath rest p

/-- `os.lstat`: the entry stored at `p` itself, without following a
final symlink. -/
def FS.lstat (fs : FS) (p : FsPath) : Option Entry :=
  lookupPath fs.entries p

/-- Store entry `e` at path `p`, replacing any previous binding. -/
def FS.set (fs : FS) (p : FsPath) (e : Entry) : FS :=
  ⟨(p, e) :: fs.entries.filter (fun q => !decide (q.1 = p))⟩

/-- `os.unlink`: remove the binding at path `p`. -/
def FS.erase (fs : FS) (p : FsPath) : FS :=
  ⟨fs.entries.filter (fun q => !decide (q.1 = p))⟩

/-- Resolve the entry at `p`, following symlink destinations while fuel
lasts (a cycle exhausts the fuel and behaves like `ELOOP`: no entry). -/
def FS.resolveEntry (fs : FS) : Nat → FsPath → Option Entry
  | 0, _ => none
  | fuel + 1, p =>
    match fs.lstat p with
    | some (Entry.symlink d) => fs.resolveEntry fuel d
    | e => e

/-- `os.stat`: resolve `p` through symlinks (fuel 40, as on Linux). -/
def FS.stat (fs : FS) (p : FsPath) : Option Entry := fs.resolveEntry 40 p

/-- `os.path.exists`: follows symlinks, so a dangling link reports
absence. -/
def FS.pathExists (fs : FS) (p : FsPath) : Bool := (fs.stat p).isSome

/-- `os.path.islink`: does `p` itself hold a symbolic link. -/
def FS.islink (fs : FS) (p : FsPath) : Bool :=
  match fs.lstat p with
  | some (Entry.symlink _) => true
  | _ => false

/-- `os.path.isdir`: does `p` resolve to a directory. -/
def FS.isdir (fs : FS) (p : FsPath) : Bool := fs.stat p == some Entry.dir

/-- Is there a directory at `p` itself (the root always counts)?  Used
as the ancestor-exists precondition of entry creation. -/
def FS.dirAt (fs : FS) (p : FsPath) : Bool :=
  p.isEmpty || (fs.lstat p == some Entry.dir)

/-- `os.path.dirname` for component paths. -/
def dirname (p : FsPath) : FsPath := p.dropLast

/-- The final component of a path (used by `shutil.move`). -/
def basename (p : FsPath) : String := p.getLastD ""

/-- `f"{config_path}.backup"`: appending `.backup` to a path string
appends it to the final component. -/
def backupPath (p : FsPath) : FsPath := p.dropLast ++ [p.getLastD "" ++ ".backup"]

/-- How one binding is relocated by `os.rename src dst`: bindings under
`src` move below `dst`, bindings under `dst` are overwritten away, the
rest stay. -/
def renameMapFn (src dst : FsPath) (r : FsPath × Entry) : Option (FsPath × Entry) :=
  if src.isPrefixOf r.1 then some (dst ++ r.1.drop src.length, r.2)
  else if dst.isPrefixOf r.1 then none
  else some r

/-- Relocate the whole subtree rooted at `src` to `dst`, silently
replacing whatever subtree was at `dst`.  This is the effect of a
successful `os.rename`; the callers below guard it with the POSIX
error conditions. -/
def FS.renameTree (fs : FS) (src dst : FsPath) : FS :=
  ⟨fs.entries.filterMap (renameMapFn src dst)⟩

/-- Does the directory at `p` contain anything? -/
def FS.dirNonEmpty (fs : FS) (p : FsPath) : Bool :=
  fs.entries.any (fun q => p.isPrefixOf q.1 && !decide (q.1 = p))

/-- `os.rename` with POSIX error conditions: the source must exist;
renaming a path to itself succeeds without effect; renaming into or out
of one's own subtree fails (`EINVAL`); an existing destination may only
be overwritten by an entry of the same shape (file over non-directory,
directory over empty directory); a fresh destination needs an existing
parent directory. -/
def FS.rename (fs : FS) (src dst : FsPath) : Option FS :=
  match fs.lstat src with
  | none => none
  | some se =>
    if src = dst then some fs
    else if src.isPrefixOf dst || dst.isPrefixOf src then none
    else
      match fs.lstat dst with
      | none => if fs.dirAt (dirname dst) then some (fs.renameTree src dst) else none
      | some Entry.dir =>
        match se with
        | Entry.dir => if fs.dirNonEmpty dst then none else some (fs.renameTree src dst)
        | _ => none
      | some _ =>
        match se with
        | Entry.dir => none
        | _ => some (fs.renameTree src dst)

/-- `shutil.move(src, dst)`: if `dst` resolves to a directory, `src` is
moved *inside* it (failing if that slot is taken); otherwise `src` is
renamed onto `dst`.  `none` is the raised exception. -/
def shutil_move (fs : FS) (src dst : FsPath) : Option FS :=
  if fs.isdir dst then
    let realDst := dst ++ [basename src]
    if fs.pathExists realDst then none
    else fs.rename src realDst
  else fs.rename src dst

/-- `os.mkdir(p)` under `exist_ok=True`: keep an existing directory,
fail on any other existing entry (including a dangling link), create
the directory otherwise. -/
def FS.mkdirOne (fs : FS) (p : FsPath) : Option FS :=
  match fs.lstat p with
  | some Entry.dir => some fs
  | some _ => none
  | none => some (fs.set p Entry.dir)

/-- Auxiliary recursion for `os.makedirs`: create each missing ancestor
in turn. -/
def makedirsAux (fs : FS) (done : FsPath) : List String → Option FS
  | [] => some fs
  | c :: cs =>
    match fs.mkdirOne (done ++ [c]) with
    | none => none
    | some fs1 => makedirsAux fs1 (done ++ [c]) cs

/-- `os.makedirs(p, exist_ok=True)`. -/
def FS.makedirs (fs : FS) (p : FsPath) : Option FS := makedirsAux fs [] p

/-- `os.symlink(source, target)`: fails if anything is at `target`
(`FileExistsError`) or its parent directory is missing (`ENOENT`). -/
def FS.symlink (fs : FS) (source target : FsPath) : Option FS :=
  if fs.dirAt (dirname target) && (fs.lstat target).isNone then
    some (fs.set target (Entry.symlink source))
  else none

/-- `os.system(f'mklink ... "{target}" "{source}"')`: creates the link
when the slot is free, and reports failure only through the ignored
shell exit status — never as a Python exception. -/
def windowsLink (fs : FS) (source target : FsPath) : FS :=
  if fs.dirAt (dirname target) && (fs.lstat target).isNone then
    fs.set target (Entry.symlink source)
  else fs

/-- Every nonempty prefix of a path, shortest first. -/
def properPrefixes (p : FsPath) : List FsPath :=
  (List.range p.length).map (fun i => p.take (i + 1))

/-- All the ancestor directories of `t` (the nonempty prefixes of its
dirname) are present as directories — the precondition under which
`os.makedirs(os.path.dirname(t), exist_ok=True)` is a successful
no-op. -/
def parentsOk (fs : FS) (t : FsPath) : Bool :=
  (properPrefixes (dirname t)).all (fun q => fs.lstat q == some Entry.dir)

/-- Messages issued through `self.logger` (modelled structurally rather
than as formatted strings). -/
inductive LogMsg where
  | backedUp (backup_path : FsPath)
  | createdSymlink (target source : FsPath)
  | failedCreateSymlink
  | commandFailed (command : List String)
  | commandError (exitCode : Nat)
  | settingUpGit
  | settingUpVSCode
  | settingUpZsh
  | settingUpIterm
  | installingPackages
  | installingHomebrew
  | winInstallInstructions (line : Nat)
  | startingSetup
  | setupComplete
  | windowsNote (line : Nat)
deriving DecidableEq, Repr

/-- Commands handed to `os.system`; apart from `mklink` their effects
on the filesystem are outside the model. -/
inductive ShellCmd where
  | mklinkDir (target source : FsPath)
  | mklinkFile (target source : FsPath)
  | brewInstallScript
  | omzInstallScript
  | defaultsLoadPrefs
  | defaultsPrefsFolder (folder : FsPath)
deriving DecidableEq, Repr

/-- Observable events of one run: log lines, `subprocess.run`
invocations, `os.system` invocations, and the `input()` prompt. -/
inductive Eff where
  | log (m : LogMsg)
  | ran (command : List String)
  | shell (c : ShellCmd)
  | prompt
deriving DecidableEq, Repr

/-- The behaviour of the outside world: an exit code for every argument
vector handed to `subprocess.run` (each such process is modelled as
running to completion), and the result of `shutil.which`. -/
structure World where
  proc : List String → Nat
  which : String → Bool

/-- `subprocess.run(command, check=True)`: raises
`CalledProcessError` (carrying the exit code) exactly on a non-zero
exit. -/
def subprocess_run_check (w : World) (command : List String) : Except Nat Unit :=
  if w.proc command = 0 then Except.ok () else Except.error (w.proc command)

/-- `run_command`: run the process; on non-zero exit catch the error,
log the command and the error, and return `false`. -/
def run_command (w : World) (command : List String) : Bool × List Eff :=
  match subprocess_run_check w command with
  | Except.ok _ => (true, [Eff.ran command])
  | Except.error code =>
    (false, [Eff.ran command, Eff.log (LogMsg.commandFailed command),
      Eff.log (LogMsg.commandError code)])

/-- Outcome of a Python block: normal completion, or an uncaught
exception.  Either way the side effects performed so far are retained
(exceptions do not roll state back). -/
inductive PyOutcome (α : Type) where
  | ok (a : α)
  | exn (a : α)
deriving DecidableEq, Repr

/-- `backup_existing_config`: if the path exists (following links),
move it to `path + ".backup"` and log the backup.  `none` is a raised
`shutil` error. -/
def backup_existing_config (fs : FS) (config_path : FsPath) :
    Option (FS × List Eff) :=
  if fs.pathExists config_path then
    match shutil_move fs config_path (backupPath config_path) with
    | none => none
    | some fs1 => some (fs1, [Eff.log (LogMsg.backedUp (backupPath config_path))])
  else some (fs, [])

/-- The `mklink` shell command chosen by `create_symlink` on Windows
(`/D` for directory sources). -/
def mklinkEff (fs : FS) (source target : FsPath) : Eff :=
  if fs.isdir source then Eff.shell (ShellCmd.mklinkDir target source)
  else Eff.shell (ShellCmd.mklinkFile target source)

/-- Step 2 of `create_symlink`: an existing target that is a symlink is
unlinked; any other existing target is backed up; an absent (or
dangling-link) target is left alone. -/
def removeExistingStep (fs : FS) (target : FsPath) : PyOutcome (FS × List Eff) :=
  if fs.pathExists target then
    if fs.islink target then PyOutcome.ok (fs.erase target, [])
    else
      match backup_existing_config fs target with
      | none => PyOutcome.exn (fs, [])
      | some r => PyOutcome.ok r
  else PyOutcome.ok (fs, [])

/-- The body of `create_symlink`'s `try` block: ensure the parent
directory, clear or back up the target, then create the link
(`os.symlink` on Unix, best-effort `mklink` via `os.system` on
Windows). -/
def createSymlinkBody (is_windows : Bool) (fs : FS) (source target : FsPath) :
    PyOutcome (FS × List Eff) :=
  match fs.makedirs (dirname target) with
  | none => PyOutcome.exn (fs, [])
  | some fs1 =>
    match removeExistingStep fs1 target with
    | PyOutcome.exn r => PyOutcome.exn r
    | PyOutcome.ok (fs2, effs) =>
      if is_windows then
        PyOutcome.ok (windowsLink fs2 source target, effs ++ [mklinkEff fs2 source target])
      else
        match fs2.symlink source target with
        | none => PyOutcome.exn (fs2, effs)
        | some fs3 => PyOutcome.ok (fs3, effs)

/-- `create_symlink`: the body wrapped in `try`/`except` — on normal
completion the success line is logged, on any exception the error is
logged and nothing propagates. -/
def create_symlink (is_windows : Bool) (fs : FS) (source target : FsPath) :
    FS × List Eff :=
  match createSymlinkBody is_windows fs source target with
  | PyOutcome.ok (fs1, effs) =>
    (fs1, effs ++ [Eff.log (LogMsg.createdSymlink target source)])
  | PyOutcome.exn (fs1, effs) =>
    (fs1, effs ++ [Eff.log LogMsg.failedCreateSymlink])

/-- The attribute record of `DevEnvironmentManager`, resolved once in
`__init__`: home directory, dotfiles directory and the OS-kind flags. -/
structure Env where
  home : FsPath
  dotfiles_path : FsPath
  is_windows : Bool
  is_macos : Bool
deriving DecidableEq, Repr

/-- Construction of the environment at startup: the dotfiles directory
is the explicit override when given, `<home>/dotfiles` otherwise. -/
def mkEnv (home : FsPath) (dotfilesOverride : Option FsPath)
    (is_windows is_macos : Bool) : Env :=
  ⟨home, dotfilesOverride.getD (home ++ ["dotfiles"]), is_windows, is_macos⟩

/-- `setup_git`: link `git/.gitconfig` into the home directory. -/
def setup_git (env : Env) (fs : FS) : FS × List Eff :=
  let gitconfig_source := env.dotfiles_path ++ ["git", ".gitconfig"]
  let gitconfig_target := env.home ++ [".gitconfig"]
  let r := create_symlink env.is_windows fs gitconfig_source gitconfig_target
  (r.1, Eff.log LogMsg.settingUpGit :: r.2)

/-- The VS Code user-configuration directory for the current OS. -/
def vscode_config_path (env : Env) : FsPath :=
  if env.is_windows then env.home ++ ["AppData", "Roaming", "Code", "User"]
  else env.home ++ ["Library", "Application Support", "Code", "User"]

/-- The three VS Code links created by `setup_vscode`. -/
def vscodeLinkPhase (env : Env) (fs : FS) : FS × List Eff :=
  let cfg := vscode_config_path env
  let r1 := create_symlink env.is_windows fs
    (env.dotfiles_path ++ ["vscode", "settings.json"]) (cfg ++ ["settings.json"])
  let r2 := create_symlink env.is_windows r1.1
    (env.dotfiles_path ++ ["vscode", "keybindings.json"]) (cfg ++ ["keybindings.json"])
  let r3 := create_symlink env.is_windows r2.1
    (env.dotfiles_path ++ ["vscode", "snippets"]) (cfg ++ ["snippets"])
  (r3.1, r1.2 ++ r2.2 ++ r3.2)

/-- `open(path)` followed by reading: yields the content of a regular
file (through links); anything else raises. -/
def openFile (fs : FS) (p : FsPath) : Option String :=
  match fs.stat p with
  | some (Entry.file c) => some c
  | _ => none

/-- Split a character list at newline characters. -/
def splitNl : List Char → List (List Char)
  | [] => [[]]
  | c :: cs =>
    if c = '\n' then [] :: splitNl cs
    else
      match splitNl cs with
      | [] => [[c]]
      | l :: ls => (c :: l) :: ls

/-- The lines Python's file iteration yields, modulo the trailing
newline each iterate carries: the content split at newline characters.
(A trailing newline contributes one extra empty line here where
Python's iteration stops; blank lines are skipped by the caller either
way.) -/
def pyLines (s : String) : List String :=
  (splitNl s.data).map (fun l => String.mk l)

/-- `str.strip()`: remove leading and trailing whitespace. -/
def pyStrip (s : String) : String :=
  String.mk (((s.data.dropWhile Char.isWhitespace).reverse.dropWhile
    Char.isWhitespace).reverse)

/-- Recognise the `subprocess.run` events among the effects. -/
def isRan : Eff → Bool
  | Eff.ran _ => true
  | _ => false

/-- The extension-install loop: one `code --install-extension` per
stripped non-blank line. -/
def installExtensions (w : World) : List String → List Eff
  | [] => []
  | line :: rest =>
    let ext := pyStrip line
    if ext = "" then installExtensions w rest
    else (run_command w ["code", "--install-extension", ext]).2 ++ installExtensions w rest

/-- The path of the optional extensions list. -/
def extensions_file (env : Env) : FsPath :=
  env.dotfiles_path ++ ["vscode", "extensions.txt"]

/-- The extension sub-step of `setup_vscode`: nothing if the file is
absent, otherwise open it and install each listed extension. -/
def extensionPhase (w : World) (fs : FS) (extFile : FsPath) : PyOutcome (List Eff) :=
  if fs.pathExists extFile then
    match openFile fs extFile with
    | none => PyOutcome.exn []
    | some content => PyOutcome.ok (installExtensions w (pyLines content))
  else PyOutcome.ok []

/-- `setup_vscode`: log the header, create the three links, then run
the extension sub-step. -/
def setup_vscode (env : Env) (w : World) (fs : FS) : PyOutcome (FS × List Eff) :=
  let r := vscodeLinkPhase env fs
  match extensionPhase w r.1 (extensions_file env) with
  | PyOutcome.ok e2 => PyOutcome.ok (r.1, Eff.log LogMsg.settingUpVSCode :: (r.2 ++ e2))
  | PyOutcome.exn e2 => PyOutcome.exn (r.1, Eff.log LogMsg.settingUpVSCode :: (r.2 ++ e2))

/-- `setup_zsh`: on non-Windows systems, bootstrap Oh My Zsh when its
directory is missing and link `.zshrc`; a no-op on Windows. -/
def setup_zsh (env : Env) (fs : FS) : FS × List Eff :=
  if env.is_windows then (fs, [])
  else
    let omz_path := env.home ++ [".oh-my-zsh"]
    let e0 := if fs.pathExists omz_path then [] else [Eff.shell ShellCmd.omzInstallScript]
    let r := create_symlink env.is_windows fs
      (env.dotfiles_path ++ ["zsh", ".zshrc"]) (env.home ++ [".zshrc"])
    (r.1, Eff.log LogMsg.settingUpZsh :: (e0 ++ r.2))

/-- `setup_iterm`: on macOS, link the iTerm2 plist and register the
custom preferences folder; a no-op elsewhere. -/
def setup_iterm (env : Env) (fs : FS) : FS × List Eff :=
  if env.is_macos then
    let iterm_source := env.dotfiles_path ++ ["iterm2", "com.googlecode.iterm2.plist"]
    let iterm_target := env.home ++ ["Library", "Preferences", "com.googlecode.iterm2.plist"]
    let r := create_symlink env.is_windows fs iterm_source iterm_target
    (r.1, Eff.log LogMsg.settingUpIterm :: (r.2 ++
      [Eff.shell ShellCmd.defaultsLoadPrefs,
       Eff.shell (ShellCmd.defaultsPrefsFolder (dirname iterm_source))]))
  else (fs, [])

/-- The Homebrew packages installed on macOS. -/
def brewPackages : List String := ["python3", "git", "visual-studio-code", "iterm2", "zsh"]

/-- `install_packages`: on macOS bootstrap Homebrew when absent and
install the package list; on Windows print instructions and prompt;
nothing else on other systems. -/
def install_packages (env : Env) (w : World) (fs : FS) : FS × List Eff :=
  let header := [Eff.log LogMsg.installingPackages]
  if env.is_macos then
    let brewBootstrap :=
      if w.which "brew" then []
      else [Eff.log LogMsg.installingHomebrew, Eff.shell ShellCmd.brewInstallScript]
    (fs, header ++ brewBootstrap ++
      (brewPackages.map (fun p => (run_command w ["brew", "install", p]).2)).flatten)
  else if env.is_windows then
    (fs, header ++ [Eff.log (LogMsg.winInstallInstructions 0),
      Eff.log (LogMsg.winInstallInstructions 1), Eff.log (LogMsg.winInstallInstructions 2),
      Eff.log (LogMsg.winInstallInstructions 3), Eff.prompt])
  else (fs, header)

/-- `setup_all`: create the dotfiles root, then run the enabled steps —
`setup_git` and `setup_vscode`.  (The calls to `install_packages`,
`setup_python_env`, `setup_zsh` and `setup_iterm` are commented out in
the source.)  A failure to create the dotfiles root, or an exception
escaping a step, aborts the run. -/
def setup_all (env : Env) (w : World) (fs : FS) : PyOutcome (FS × List Eff) :=
  match fs.makedirs env.dotfiles_path with
  | none => PyOutcome.exn (fs, [Eff.log LogMsg.startingSetup])
  | some fs1 =>
    let g := setup_git env fs1
    match setup_vscode env w g.1 with
    | PyOutcome.exn (fs3, ev) =>
      PyOutcome.exn (fs3, Eff.log LogMsg.startingSetup :: (g.2 ++ ev))
    | PyOutcome.ok (fs3, ev) =>
      let tail :=
        if env.is_windows then
          [Eff.log LogMsg.setupComplete, Eff.log (LogMsg.windowsNote 0),
           Eff.log (LogMsg.windowsNote 1)]
        else [Eff.log LogMsg.setupComplete]
      PyOutcome.ok (fs3, Eff.log LogMsg.startingSetup :: (g.2 ++ ev) ++ tail)

/-- The effects of a finished-or-aborted run. -/
def outcomeEffs : PyOutcome (FS × List Eff) → List Eff
  | PyOutcome.ok r => r.2
  | PyOutcome.exn r => r.2

/-- The shapes of event that the two steps `setup_all` actually runs
can emit (besides their own two header lines): link-step events,
command events and the closing log lines — notably *not* the header
lines of the package-install, shell-config or terminal-config
routines. -/
def benignEff (m : Eff) : Prop :=
  m = Eff.log LogMsg.settingUpVSCode ∨ m = Eff.log LogMsg.setupComplete ∨
  m = Eff.log (LogMsg.windowsNote 0) ∨ m = Eff.log (LogMsg.windowsNote 1) ∨
  (∃ p, m = Eff.log (LogMsg.backedUp p)) ∨
  (∃ t s, m = Eff.log (LogMsg.createdSymlink t s)) ∨
  m = Eff.log LogMsg.failedCreateSymlink ∨ (∃ sc, m = Eff.shell sc) ∨
  (∃ cmd, m = Eff.ran cmd) ∨ (∃ cmd, m = Eff.log (LogMsg.commandFailed cmd)) ∨
  (∃ n, m = Eff.log (LogMsg.commandError n))

/-- `main`: build the environment once (`DOTFILES_PATH` override or
`<home>/dotfiles`), run `setup_all`, and exit 0 on normal completion or
1 on an uncaught exception. -/
def main (home : FsPath) (dotfilesOverride : Option FsPath)
    (is_windows is_macos : Bool) (w : World) (fs : FS) : Nat × FS × List Eff :=
  let env := mkEnv home dotfilesOverride is_windows is_macos
  match setup_all env w fs with
  | PyOutcome.ok (fs1, effs) => (0, fs1, effs)
  | PyOutcome.exn (fs1, effs) => (1, fs1, effs)

/-!
Attribute-threaded readings of the methods, for the immutability claim:
each method returns the `DevEnvironmentManager` attribute record it
leaves behind next to its ordinary result, making any attribute
assignment it performed visible.  The method bodies read
`self.home`, `self.dotfiles_path`, `self.is_windows`, `self.is_macos`
and assign none of them.
-/

/-- `create_symlink` as a method: reads `self.is_windows`, writes no
attribute. -/
def create_symlink_obj (self : Env) (fs : FS) (source target : FsPath) :
    Env × FS × List Eff :=
  (self, create_symlink self.is_windows fs source target)

/-- `setup_git` as a method. -/
def setup_git_obj (self : Env) (fs : FS) : Env × FS × List Eff :=
  let r := create_symlink_obj self fs
    (self.dotfiles_path ++ ["git", ".gitconfig"]) (self.home ++ [".gitconfig"])
  (r.1, r.2.1, Eff.log LogMsg.settingUpGit :: r.2.2)

/-- `setup_vscode` as a method: the three link calls thread the
attribute record through `create_symlink_obj`. -/
def setup_vscode_obj (self : Env) (w : World) (fs : FS) :
    Env × PyOutcome (FS × List Eff) :=
  let cfg := vscode_config_path self
  let r1 := create_symlink_obj self fs
    (self.dotfiles_path ++ ["vscode", "settings.json"]) (cfg ++ ["settings.json"])
  let r2 := create_symlink_obj r1.1 r1.2.1
    (r1.1.dotfiles_path ++ ["vscode", "keybindings.json"]) (cfg ++ ["keybindings.json"])
  let r3 := create_symlink_obj r2.1 r2.2.1
    (r2.1.dotfiles_path ++ ["vscode", "snippets"]) (cfg ++ ["snippets"])
  match extensionPhase w r3.2.1 (extensions_file r3.1) with
  | PyOutcome.ok e2 =>
    (r3.1, PyOutcome.ok (r3.2.1,
      Eff.log LogMsg.settingUpVSCode :: ((r1.2.2 ++ r2.2.2 ++ r3.2.2) ++ e2)))
  | PyOutcome.exn e2 =>
    (r3.1, PyOutcome.exn (r3.2.1,
      Eff.log LogMsg.settingUpVSCode :: ((r1.2.2 ++ r2.2.2 ++ r3.2.2) ++ e2)))

/-- `setup_zsh` as a method. -/
def setup_zsh_obj (self : Env) (fs : FS) : Env × FS × List Eff :=
  if self.is_windows then (self, fs, [])
  else
    let omz_path := self.home ++ [".oh-my-zsh"]
    let e0 := if fs.pathExists omz_path then [] else [Eff.shell ShellCmd.omzInstallScript]
    let r := create_symlink_obj self fs
      (self.dotfiles_path ++ ["zsh", ".zshrc"]) (self.home ++ [".zshrc"])
    (r.1, r.2.1, Eff.log LogMsg.settingUpZsh :: (e0 ++ r.2.2))

/-- `setup_iterm` as a method. -/
def setup_iterm_obj (self : Env) (fs : FS) : Env × FS × List Eff :=
  if self.is_macos then
    let iterm_source := self.dotfiles_path ++ ["iterm2", "com.googlecode.iterm2.plist"]
    let iterm_target := self.home ++ ["Library", "Preferences", "com.googlecode.iterm2.plist"]
    let r := create_symlink_obj self fs iterm_source iterm_target
    (r.1, r.2.1, Eff.log LogMsg.settingUpIterm :: (r.2.2 ++
      [Eff.shell ShellCmd.defaultsLoadPrefs,
       Eff.shell (ShellCmd.defaultsPrefsFolder (dirname iterm_source))]))
  else (self, fs, [])

/-- `install_packages` as a method: reads the OS flags, writes no
attribute. -/
def install_packages_obj (self : Env) (w : World) (fs : FS) : Env × FS × List Eff :=
  (self, install_packages self w fs)

/-- `setup_all` as a method, threading the attribute record through the
steps it actually runs. -/
def setup_all_obj (self : Env) (w : World) (fs : FS) :
    Env × PyOutcome (FS × List Eff) :=
  match fs.makedirs self.dotfiles_path with
  | none => (self, PyOutcome.exn (fs, [Eff.log LogMsg.startingSetup]))
  | some fs1 =>
    let g := setup_git_obj self fs1
    match setup_vscode_obj g.1 w g.2.1 with
    | (self2, PyOutcome.exn (fs3, ev)) =>
      (self2, PyOutcome.exn (fs3, Eff.log LogMsg.startingSetup :: (g.2.2 ++ ev)))
    | (self2, PyOutcome.ok (fs3, ev)) =>
      let tail :=
        if self2.is_windows then
          [Eff.log LogMsg.setupComplete, Eff.log (LogMsg.windowsNote 0),
           Eff.log (LogMsg.windowsNote 1)]
        else [Eff.log LogMsg.setupComplete]
      (self2, PyOutcome.ok (fs3, Eff.log LogMsg.startingSetup :: (g.2.2 ++ ev) ++ tail))

/-!
Lemma toolkit about the filesystem model.
-/

theorem lookupPath_filter_ne (p : FsPath) (l : List (FsPath × Entry)) :
    ∀ q : FsPath,
      lookupPath (l.filter (fun r => !decide (r.1 = p))) q =
        if q = p then none else lookupPath l q := by
  induction l with
  | nil =>
    intro q
    simp only [List.filter_nil, lookupPath, ite_self]
  | cons a l ih =>
    intro q
    obtain ⟨k, e⟩ := a
    rw [List.filter_cons]
    by_cases hk : k = p
    · subst hk
      rw [if_neg (by simp)]
      by_cases hq : q = k <;> simp [lookupPath, ih, hq]
    · rw [if_pos (by simp [hk])]
      by_cases hq : q = k
      · subst hq
        simp [lookupPath, hk]
      · have hpk : ¬ p = k := fun h => hk h.symm
        by_cases hqp : q = p <;> simp [lookupPath, hk, hq, hqp, hpk, ih]

theorem lstat_set (fs : FS) (p q : FsPath) (e : Entry) :
    (fs.set p e).lstat q = if q = p then some e else fs.lstat q := by
  show lookupPath ((p, e) :: _) q = _
  by_cases hq : q = p <;>
    simp [lookupPath, hq, lookupPath_filter_ne p fs.entries q, FS.lstat]

theorem lstat_erase (fs : FS) (p q : FsPath) :
    (fs.erase p).lstat q = if q = p then none else fs.lstat q := by
  show lookupPath _ q = _
  exact lookupPath_filter_ne p fs.entries q

theorem renameMapFn_moved (src dst : FsPath) (k : FsPath) (e : Entry)
    (hsk : src <+: k) :
    renameMapFn src dst (k, e) = some (dst ++ k.drop src.length, e) := by
  simp [renameMapFn, hsk]

theorem renameMapFn_dropped (src dst : FsPath) (k : FsPath) (e : Entry)
    (hsk : ¬ src <+: k) (hdk : dst <+: k) :
    renameMapFn src dst (k, e) = none := by
  simp [renameMapFn, hsk, hdk]

theorem renameMapFn_kept (src dst : FsPath) (k : FsPath) (e : Entry)
    (hsk : ¬ src <+: k) (hdk : ¬ dst <+: k) :
    renameMapFn src dst (k, e) = some (k, e) := by
  simp [renameMapFn, hsk, hdk]

theorem lookupPath_rename (src dst : FsPath) (l : List (FsPath × Entry)) :
    ∀ q : FsPath,
      lookupPath (l.filterMap (renameMapFn src dst)) q =
      if dst <+: q then lookupPath l (src ++ q.drop dst.length)
      else if src <+: q then none
      else lookupPath l q := by
  induction l with
  | nil =>
    intro q
    simp only [List.filterMap_nil, lookupPath]
    split
    · rfl
    · split <;> rfl
  | cons a l ih =>
    intro q
    obtain ⟨k, e⟩ := a
    by_cases hsk : src <+: k
    · have hk : src ++ List.drop src.length k = k := List.prefix_iff_eq_append.mp hsk
      simp only [List.filterMap_cons, renameMapFn_moved src dst k e hsk, lookupPath, ih]
      by_cases hdq : dst <+: q
      · by_cases heq : q = dst ++ List.drop src.length k
        · simp [heq, List.drop_left, hk]
        · have hq : dst ++ List.drop dst.length q = q := List.prefix_iff_eq_append.mp hdq
          have hkey : ¬ (src ++ List.drop dst.length q = k) := by
            intro h
            apply heq
            rw [← hq]
            congr 1
            rw [← h, List.drop_left]
          simp [heq, hdq, hkey]
      · have hne : ¬ (q = dst ++ List.drop src.length k) := by
          intro h
          apply hdq
          rw [h]
          exact List.prefix_append dst _
        by_cases hsq : src <+: q
        · simp [hne, hdq, hsq]
        · have hqk : ¬ (q = k) := by
            intro h
            apply hsq
            rw [h]
            exact hsk
          simp [hne, hdq, hsq, hqk]
    · by_cases hdk : dst <+: k
      · simp only [List.filterMap_cons, renameMapFn_dropped src dst k e hsk hdk,
          lookupPath, ih]
        by_cases hdq : dst <+: q
        · have hkey : ¬ (src ++ List.drop dst.length q = k) := by
            intro h
            apply hsk
            rw [← h]
            exact List.prefix_append src _
          simp [hdq, hkey]
        · by_cases hsq : src <+: q
          · simp [hdq, hsq]
          · have hqk : ¬ (q = k) := by
              intro h
              rw [h] at hdq
              exact hdq hdk
            simp [hdq, hsq, hqk]
      · simp only [List.filterMap_cons, renameMapFn_kept src dst k e hsk hdk,
          lookupPath, ih]
        by_cases hdq : dst <+: q
        · have hkey : ¬ (src ++ List.drop dst.length q = k) := by
            intro h
            apply hsk
            rw [← h]
            exact List.prefix_append src _
          have hqk : ¬ (q = k) := by
            intro h
            rw [h] at hdq
            exact hdk hdq
          simp [hdq, hkey, hqk]
        · by_cases hsq : src <+: q
          · have hqk : ¬ (q = k) := by
              intro h
              rw [h] at hsq
              exact hsk hsq
            simp [hdq, hsq, hqk]
          · simp [hdq, hsq]

theorem lstat_renameTree (fs : FS) (src dst : FsPath) (q : FsPath) :
    (fs.renameTree src dst).lstat q =
      if dst <+: q then fs.lstat (src ++ q.drop dst.length)
      else if src <+: q then none
      else fs.lstat q := by
  show lookupPath _ q = _
  exact lookupPath_rename src dst fs.entries q

theorem backupPath_concat (pre : FsPath) (c : String) :
    backupPath (pre ++ [c]) = pre ++ [c ++ ".backup"] := by
  simp [backupPath, List.getLastD_concat]

theorem backup_component_ne (c : String) : ¬ (c = c ++ ".backup") := by
  intro h
  have hlen := congrArg String.length h
  rw [String.length_append] at hlen
  have h7 : ".backup".length = 7 := rfl
  rw [h7] at hlen
  omega

theorem target_exists_concat (t : FsPath) (h : t ≠ []) :
    ∃ pre c, t = pre ++ [c] := by
  rcases List.eq_nil_or_concat t with h0 | ⟨pre, c, h0⟩
  · exact absurd h0 h
  · exact ⟨pre, c, by simpa [List.concat_eq_append] using h0⟩

theorem target_not_prefix_backup (t : FsPath) (h : t ≠ []) :
    ¬ (t <+: backupPath t) := by
  obtain ⟨pre, c, rfl⟩ := target_exists_concat t h
  rw [backupPath_concat]
  intro hp
  rw [List.prefix_append_right_inj] at hp
  rcases List.cons_prefix_cons.mp hp with ⟨h1, _⟩
  exact backup_component_ne c h1

theorem backup_not_prefix_target (t : FsPath) (h : t ≠ []) :
    ¬ (backupPath t <+: t) := by
  obtain ⟨pre, c, rfl⟩ := target_exists_concat t h
  rw [backupPath_concat]
  intro hp
  rw [List.prefix_append_right_inj] at hp
  rcases List.cons_prefix_cons.mp hp with ⟨h1, _⟩
  exact backup_component_ne c h1.symm

theorem backupPath_ne_target (t : FsPath) (h : t ≠ []) : ¬ (backupPath t = t) := by
  intro he
  apply backup_not_prefix_target t h
  rw [he]

theorem target_ne_backupPath (t : FsPath) (h : t ≠ []) : ¬ (t = backupPath t) := by
  intro he
  exact backupPath_ne_target t h he.symm

theorem dirname_backupPath (t : FsPath) (h : t ≠ []) :
    dirname (backupPath t) = dirname t := by
  obtain ⟨pre, c, rfl⟩ := target_exists_concat t h
  rw [backupPath_concat]
  simp [dirname]

theorem dirname_length_lt (t : FsPath) (h : t ≠ []) :
    (dirname t).length < t.length := by
  have hpos : 0 < t.length := List.length_pos.mpr h
  simp only [dirname, List.length_dropLast]
  omega

theorem target_not_prefix_dirname (t : FsPath) (h : t ≠ []) :
    ¬ (t <+: dirname t) := by
  intro hp
  have h1 := hp.length_le
  have h2 := dirname_length_lt t h
  omega

theorem dirname_ne_target (t : FsPath) (h : t ≠ []) : ¬ (dirname t = t) := by
  intro he
  have := dirname_length_lt t h
  rw [he] at this
  omega

theorem parentsOk_spec (fs : FS) (t : FsPath) (h : parentsOk fs t = true) :
    ∀ q : FsPath, q ≠ [] → q <+: dirname t → fs.lstat q = some Entry.dir := by
  intro q hne hq
  have hlen : q.length ≤ (dirname t).length := hq.length_le
  have hpos : 0 < q.length := List.length_pos.mpr hne
  have htake : q = (dirname t).take q.length := List.prefix_iff_eq_take.mp hq
  have hmem : q ∈ properPrefixes (dirname t) := by
    rw [properPrefixes]
    refine List.mem_map.mpr ⟨q.length - 1, List.mem_range.mpr (by omega), ?_⟩
    have hq1 : q.length - 1 + 1 = q.length := by omega
    rw [hq1, ← htake]
  have := List.all_eq_true.mp h q hmem
  simpa using this

theorem parentsOk_dirAt (fs : FS) (t : FsPath) (h : parentsOk fs t = true) :
    fs.dirAt (dirname t) = true := by
  by_cases hd : dirname t = []
  · simp [FS.dirAt, hd]
  · have := parentsOk_spec fs t h (dirname t) hd (List.prefix_refl _)
    simp [FS.dirAt, this]

theorem dirAt_of_parents (fs : FS) (t : FsPath)
    (h : ∀ q : FsPath, q ≠ [] → q <+: dirname t → fs.lstat q = some Entry.dir) :
    fs.dirAt (dirname t) = true := by
  by_cases hd : dirname t = []
  · simp [FS.dirAt, hd]
  · have := h (dirname t) hd (List.prefix_refl _)
    simp [FS.dirAt, this]

theorem makedirsAux_noop (rest : List String) :
    ∀ (fs : FS) (done : FsPath),
      (∀ pre : FsPath, pre ≠ [] → pre <+: rest →
        fs.lstat (done ++ pre) = some Entry.dir) →
      makedirsAux fs done rest = some fs := by
  induction rest with
  | nil =>
    intro fs done _
    rfl
  | cons c cs ih =>
    intro fs done h
    have h1 : fs.lstat (done ++ [c]) = some Entry.dir :=
      h [c] (by simp) ⟨cs, rfl⟩
    have h2 : ∀ pre : FsPath, pre ≠ [] → pre <+: cs →
        fs.lstat ((done ++ [c]) ++ pre) = some Entry.dir := by
      intro pre hne hp
      have := h (c :: pre) (by simp) (List.cons_prefix_cons.mpr ⟨rfl, hp⟩)
      rw [List.append_assoc, List.singleton_append]
      exact this
    simp [makedirsAux, FS.mkdirOne, h1, ih fs (done ++ [c]) h2]

theorem makedirs_noop (fs : FS) (p : FsPath)
    (h : ∀ q : FsPath, q ≠ [] → q <+: p → fs.lstat q = some Entry.dir) :
    fs.makedirs p = some fs := by
  apply makedirsAux_noop
  intro pre hne hp
  have := h pre hne hp
  simpa using this

theorem makedirs_dirname_noop (fs : FS) (t : FsPath) (h : parentsOk fs t = true) :
    fs.makedirs (dirname t) = some fs :=
  makedirs_noop fs (dirname t) (parentsOk_spec fs t h)

theorem stat_of_lstat_file (fs : FS) (p : FsPath) (c : String)
    (h : fs.lstat p = some (Entry.file c)) : fs.stat p = some (Entry.file c) := by
  show fs.resolveEntry 40 p = _
  rw [show (40 : Nat) = 39 + 1 from rfl]
  simp [FS.resolveEntry, h]

theorem stat_of_lstat_dir (fs : FS) (p : FsPath)
    (h : fs.lstat p = some Entry.dir) : fs.stat p = some Entry.dir := by
  show fs.resolveEntry 40 p = _
  rw [show (40 : Nat) = 39 + 1 from rfl]
  simp [FS.resolveEntry, h]

theorem stat_of_lstat_none (fs : FS) (p : FsPath)
    (h : fs.lstat p = none) : fs.stat p = none := by
  show fs.resolveEntry 40 p = _
  rw [show (40 : Nat) = 39 + 1 from rfl]
  simp [FS.resolveEntry, h]

theorem stat_link_file (fs : FS) (p d : FsPath) (c : String)
    (h1 : fs.lstat p = some (Entry.symlink d))
    (h2 : fs.lstat d = some (Entry.file c)) :
    fs.stat p = some (Entry.file c) := by
  show fs.resolveEntry 40 p = _
  rw [show (40 : Nat) = 39 + 1 from rfl]
  rw [show fs.resolveEntry (39 + 1) p = fs.resolveEntry 39 d by
    simp [FS.resolveEntry, h1]]
  rw [show (39 : Nat) = 38 + 1 from rfl]
  simp [FS.resolveEntry, h2]

theorem pathExists_of_file (fs : FS) (p : FsPath) (c : String)
    (h : fs.lstat p = some (Entry.file c)) : fs.pathExists p = true := by
  simp [FS.pathExists, stat_of_lstat_file fs p c h]

theorem pathExists_of_dir (fs : FS) (p : FsPath)
    (h : fs.lstat p = some Entry.dir) : fs.pathExists p = true := by
  simp [FS.pathExists, stat_of_lstat_dir fs p h]

theorem pathExists_of_lstat_none (fs : FS) (p : FsPath)
    (h : fs.lstat p = none) : fs.pathExists p = false := by
  simp [FS.pathExists, stat_of_lstat_none fs p h]

theorem islink_of_file (fs : FS) (p : FsPath) (c : String)
    (h : fs.lstat p = some (Entry.file c)) : fs.islink p = false := by
  simp [FS.islink, h]

theorem islink_of_link (fs : FS) (p d : FsPath)
    (h : fs.lstat p = some (Entry.symlink d)) : fs.islink p = true := by
  simp [FS.islink, h]

theorem isdir_of_lstat_none (fs : FS) (p : FsPath)
    (h : fs.lstat p = none) : fs.isdir p = false := by
  simp [FS.isdir, stat_of_lstat_none fs p h]

theorem dirAt_congr (fs1 fs2 : FS) (p : FsPath)
    (h : fs1.lstat p = fs2.lstat p) : fs1.dirAt p = fs2.dirAt p := by
  simp [FS.dirAt, h]

theorem isdir_of_lstat_dir (fs : FS) (p : FsPath)
    (h : fs.lstat p = some Entry.dir) : fs.isdir p = true := by
  simp [FS.isdir, stat_of_lstat_dir fs p h]

theorem createSymlinkBody_link (iw : Bool) (fs : FS) (source target d : FsPath)
    (ht : target ≠ []) (hp : ∀ q : FsPath, q ≠ [] → q <+: dirname target → fs.lstat q = some Entry.dir)
    (hl : fs.lstat target = some (Entry.symlink d))
    (hex : fs.pathExists target = true) :
    createSymlinkBody iw fs source target =
      PyOutcome.ok ((fs.erase target).set target (Entry.symlink source),
        if iw then [mklinkEff (fs.erase target) source target] else []) := by
  have hda : (fs.erase target).dirAt (dirname target) = true := by
    rw [dirAt_congr (fs.erase target) fs (dirname target) (by
      rw [lstat_erase, if_neg (dirname_ne_target target ht)])]
    exact dirAt_of_parents fs target hp
  have hnone : (fs.erase target).lstat target = none := by
    rw [lstat_erase, if_pos rfl]
  simp only [createSymlinkBody, makedirs_noop fs (dirname target) hp]
  simp only [show removeExistingStep fs target = PyOutcome.ok (fs.erase target, []) from by
    simp [removeExistingStep, hex, islink_of_link fs target d hl]]
  cases iw
  · simp [FS.symlink, hda, hnone]
  · simp [windowsLink, hda, hnone]

theorem create_symlink_link (iw : Bool) (fs : FS) (source target d : FsPath)
    (ht : target ≠ []) (hp : ∀ q : FsPath, q ≠ [] → q <+: dirname target → fs.lstat q = some Entry.dir)
    (hl : fs.lstat target = some (Entry.symlink d))
    (hex : fs.pathExists target = true) :
    create_symlink iw fs source target =
      ((fs.erase target).set target (Entry.symlink source),
        (if iw then [mklinkEff (fs.erase target) source target] else []) ++
          [Eff.log (LogMsg.createdSymlink target source)]) := by
  simp only [create_symlink, createSymlinkBody_link iw fs source target d ht hp hl hex]

theorem shutil_move_backup (fs : FS) (target : FsPath)
    (ht : target ≠ []) (hp : ∀ q : FsPath, q ≠ [] → q <+: dirname target → fs.lstat q = some Entry.dir)
    (hex : fs.pathExists target = true) (hnl : fs.islink target = false)
    (hbd : fs.isdir (backupPath target) = false)
    (hOr : (∃ c, fs.lstat target = some (Entry.file c)) ∨
      fs.lstat (backupPath target) = none) :
    shutil_move fs target (backupPath target) =
      some (fs.renameTree target (backupPath target)) := by
  have hne := target_ne_backupPath target ht
  have hp1 := target_not_prefix_backup target ht
  have hp2 := backup_not_prefix_target target ht
  have hda : fs.dirAt (dirname (backupPath target)) = true := by
    rw [dirname_backupPath target ht]
    exact dirAt_of_parents fs target hp
  cases hlt : fs.lstat target with
  | none =>
    rw [pathExists_of_lstat_none fs target hlt] at hex
    exact absurd hex (by simp)
  | some se =>
    cases se with
    | symlink d =>
      rw [islink_of_link fs target d hlt] at hnl
      exact absurd hnl (by simp)
    | file c =>
      cases hbk : fs.lstat (backupPath target) with
      | none => simp [shutil_move, hbd, FS.rename, hlt, hbk, hne, hp1, hp2, hda]
      | some de =>
        cases de with
        | dir =>
          rw [isdir_of_lstat_dir fs (backupPath target) hbk] at hbd
          exact absurd hbd (by simp)
        | file c2 => simp [shutil_move, hbd, FS.rename, hlt, hbk, hne, hp1, hp2]
        | symlink d2 => simp [shutil_move, hbd, FS.rename, hlt, hbk, hne, hp1, hp2]
    | dir =>
      rcases hOr with ⟨c, hc⟩ | hbn
      · rw [hlt] at hc
        exact absurd hc (by simp)
      · simp [shutil_move, hbd, FS.rename, hlt, hbn, hne, hp1, hp2, hda]

theorem createSymlinkBody_backup (iw : Bool) (fs : FS) (source target : FsPath)
    (ht : target ≠ []) (hp : ∀ q : FsPath, q ≠ [] → q <+: dirname target → fs.lstat q = some Entry.dir)
    (hex : fs.pathExists target = true) (hnl : fs.islink target = false)
    (hbd : fs.isdir (backupPath target) = false)
    (hOr : (∃ c, fs.lstat target = some (Entry.file c)) ∨
      fs.lstat (backupPath target) = none) :
    createSymlinkBody iw fs source target =
      PyOutcome.ok
        ((fs.renameTree target (backupPath target)).set target (Entry.symlink source),
          Eff.log (LogMsg.backedUp (backupPath target)) ::
            (if iw then
              [mklinkEff (fs.renameTree target (backupPath target)) source target]
             else [])) := by
  have hfsb : (fs.renameTree target (backupPath target)).lstat target = none := by
    rw [lstat_renameTree, if_neg (backup_not_prefix_target target ht),
      if_pos (List.prefix_refl target)]
  have hdirn : (fs.renameTree target (backupPath target)).lstat (dirname target) =
      fs.lstat (dirname target) := by
    rw [lstat_renameTree]
    rw [if_neg (fun h => backup_not_prefix_target target ht
      (h.trans ( List.dropLast_prefix target)))]
    rw [if_neg (target_not_prefix_dirname target ht)]
  have hda : (fs.renameTree target (backupPath target)).dirAt (dirname target) = true := by
    rw [dirAt_congr _ fs (dirname target) hdirn]
    exact dirAt_of_parents fs target hp
  simp only [createSymlinkBody, makedirs_noop fs (dirname target) hp]
  simp only [show removeExistingStep fs target =
      PyOutcome.ok (fs.renameTree target (backupPath target),
        [Eff.log (LogMsg.backedUp (backupPath target))]) from by
    simp [removeExistingStep, hex, hnl, backup_existing_config,
      shutil_move_backup fs target ht hp hex hnl hbd hOr]]
  cases iw
  · simp [FS.symlink, hda, hfsb]
  · simp [windowsLink, hda, hfsb]

theorem create_symlink_backup (iw : Bool) (fs : FS) (source target : FsPath)
    (ht : target ≠ []) (hp : ∀ q : FsPath, q ≠ [] → q <+: dirname target → fs.lstat q = some Entry.dir)
    (hex : fs.pathExists target = true) (hnl : fs.islink target = false)
    (hbd : fs.isdir (backupPath target) = false)
    (hOr : (∃ c, fs.lstat target = some (Entry.file c)) ∨
      fs.lstat (backupPath target) = none) :
    create_symlink iw fs source target =
      ((fs.renameTree target (backupPath target)).set target (Entry.symlink source),
        Eff.log (LogMsg.backedUp (backupPath target)) ::
          ((if iw then
              [mklinkEff (fs.renameTree target (backupPath target)) source target]
            else []) ++
            [Eff.log (LogMsg.createdSymlink target source)])) := by
  simp only [create_symlink,
    createSymlinkBody_backup iw fs source target ht hp hex hnl hbd hOr,
    List.cons_append]

theorem createSymlinkBody_dangling (fs : FS) (source target d : FsPath)
    (ht : target ≠ []) (hp : ∀ q : FsPath, q ≠ [] → q <+: dirname target → fs.lstat q = some Entry.dir)
    (hl : fs.lstat target = some (Entry.symlink d))
    (hex : fs.pathExists target = false) :
    createSymlinkBody false fs source target = PyOutcome.exn (fs, []) := by
  simp only [createSymlinkBody, makedirs_noop fs (dirname target) hp]
  simp only [show removeExistingStep fs target = PyOutcome.ok (fs, []) from by
    simp [removeExistingStep, hex]]
  simp [FS.symlink, hl]

/-- C1: counterexample.  The claim states that a pre-existing non-link
target is renamed to `target + ".backup"`, silently overwriting any
previous backup at that path.  With target `t` a regular file and a
*directory* already sitting at `t.backup`, `shutil.move` instead moves
the file *inside* that directory: afterwards `t.backup` is still the
old directory, the displaced file sits at `t.backup/t`, and nothing was
renamed onto `t.backup`. -/
theorem c1_counterexample :
    (create_symlink false
        (⟨[(["t"], Entry.file "data"), (["t.backup"], Entry.dir)]⟩ : FS)
        ["s"] ["t"]).1.lstat ["t.backup"] = some Entry.dir ∧
    (create_symlink false
        (⟨[(["t"], Entry.file "data"), (["t.backup"], Entry.dir)]⟩ : FS)
        ["s"] ["t"]).1.lstat ["t.backup", "t"] = some (Entry.file "data") ∧
    ¬ ((create_symlink false
        (⟨[(["t"], Entry.file "data"), (["t.backup"], Entry.dir)]⟩ : FS)
        ["s"] ["t"]).1.lstat ["t.backup"] = some (Entry.file "data")) := by
  decide

/-- C1 (amended): for every call `link(source, target)` whose target
exists (resolving links) and whose ancestor directories are in place:
if the target is itself a symbolic link it is removed unconditionally —
no backup is created (the entry at `target + ".backup"` is untouched,
as is every other path) — and the new link is created at the target;
otherwise (regular file or directory), provided `target + ".backup"` is
not currently a directory and (when something does sit at that backup
path) the displaced target is a regular file, the old target is renamed
to `target + ".backup"`, silently overwriting any previous backup
there, the backup is logged, and the new link is then created at the
target. -/
theorem c1_backup_semantics (iw : Bool) (fs : FS) (source target : FsPath)
    (ht : target ≠ []) (hp : parentsOk fs target = true)
    (hex : fs.pathExists target = true) :
    (∀ d, fs.lstat target = some (Entry.symlink d) →
      ((create_symlink iw fs source target).1.lstat target =
          some (Entry.symlink source) ∧
        (create_symlink iw fs source target).1.lstat (backupPath target) =
          fs.lstat (backupPath target) ∧
        ∀ q, q ≠ target →
          (create_symlink iw fs source target).1.lstat q = fs.lstat q)) ∧
    (fs.islink target = false →
      fs.isdir (backupPath target) = false →
      ((∃ c, fs.lstat target = some (Entry.file c)) ∨
        fs.lstat (backupPath target) = none) →
      ((create_symlink iw fs source target).1.lstat target =
          some (Entry.symlink source) ∧
        (create_symlink iw fs source target).1.lstat (backupPath target) =
          fs.lstat target ∧
        Eff.log (LogMsg.backedUp (backupPath target)) ∈
          (create_symlink iw fs source target).2 ∧
        Eff.log (LogMsg.createdSymlink target source) ∈
          (create_symlink iw fs source target).2)) := by
  constructor
  · intro d hl
    rw [create_symlink_link iw fs source target d ht (parentsOk_spec fs target hp) hl hex]
    refine ⟨?_, ?_, ?_⟩
    · rw [lstat_set, if_pos rfl]
    · rw [lstat_set, if_neg (backupPath_ne_target target ht), lstat_erase,
        if_neg (backupPath_ne_target target ht)]
    · intro q hq
      rw [lstat_set, if_neg hq, lstat_erase, if_neg hq]
  · intro hnl hbd hOr
    rw [create_symlink_backup iw fs source target ht (parentsOk_spec fs target hp) hex hnl hbd hOr]
    refine ⟨?_, ?_, ?_, ?_⟩
    · rw [lstat_set, if_pos rfl]
    · rw [lstat_set, if_neg (backupPath_ne_target target ht), lstat_renameTree,
        if_pos (List.prefix_refl (backupPath target)), List.drop_length,
        List.append_nil]
    · simp
    · simp

/-- C1 (witness): a concrete run with a regular-file target, ancestors
in place and no previous backup, instantiating every hypothesis of the
amended theorem's backup branch. -/
theorem c1_backup_semantics_witness :
    (["home", "t"] ≠ ([] : FsPath)) ∧
    parentsOk (⟨[(["home"], Entry.dir), (["home", "t"], Entry.file "old"),
      (["src"], Entry.file "new")]⟩ : FS) ["home", "t"] = true ∧
    (⟨[(["home"], Entry.dir), (["home", "t"], Entry.file "old"),
      (["src"], Entry.file "new")]⟩ : FS).pathExists ["home", "t"] = true ∧
    (create_symlink false
        (⟨[(["home"], Entry.dir), (["home", "t"], Entry.file "old"),
          (["src"], Entry.file "new")]⟩ : FS) ["src"] ["home", "t"]).1.lstat
        (backupPath ["home", "t"]) =
      (⟨[(["home"], Entry.dir), (["home", "t"], Entry.file "old"),
        (["src"], Entry.file "new")]⟩ : FS).lstat ["home", "t"] :=
  ⟨by decide, by decide, by decide,
    ((c1_backup_semantics false
        (⟨[(["home"], Entry.dir), (["home", "t"], Entry.file "old"),
          (["src"], Entry.file "new")]⟩ : FS) ["src"] ["home", "t"]
        (by decide) (by decide) (by decide)).2
      (by decide) (by decide) (Or.inl ⟨"old", by decide⟩)).2.1⟩

/-- C2: counterexample.  The claim quantifies over every target that
pre-exists as a link.  For a *dangling* link, `os.path.exists` reports
absence, so the link is neither removed nor replaced: afterwards the
target still holds the old link destination, not the new source. -/
theorem c2_counterexample :
    (⟨[(["t"], Entry.symlink ["gone"])]⟩ : FS).islink ["t"] = true ∧
    (create_symlink false (⟨[(["t"], Entry.symlink ["gone"])]⟩ : FS)
        ["s"] ["t"]).1.lstat ["t"] = some (Entry.symlink ["gone"]) ∧
    ¬ ((create_symlink false (⟨[(["t"], Entry.symlink ["gone"])]⟩ : FS)
        ["s"] ["t"]).1.lstat ["t"] = some (Entry.symlink ["s"])) := by
  decide

/-- C2 (amended): for every `(source, target)` pair where the target
pre-exists as a symbolic link *whose destination exists*, after
`link(source, target)` no `.backup` file is created (the entry at
`target + ".backup"` is exactly what it was) and the target is now a
link to the new source. -/
theorem c2_relink_discards_old (iw : Bool) (fs : FS) (source target d : FsPath)
    (ht : target ≠ []) (hp : parentsOk fs target = true)
    (hl : fs.lstat target = some (Entry.symlink d))
    (hex : fs.pathExists target = true) :
    (create_symlink iw fs source target).1.lstat (backupPath target) =
      fs.lstat (backupPath target) ∧
    (create_symlink iw fs source target).1.lstat target =
      some (Entry.symlink source) := by
  rw [create_symlink_link iw fs source target d ht (parentsOk_spec fs target hp) hl hex]
  constructor
  · rw [lstat_set, if_neg (backupPath_ne_target target ht), lstat_erase,
      if_neg (backupPath_ne_target target ht)]
  · rw [lstat_set, if_pos rfl]

/-- C2 (witness): a resolving link target is replaced in place, with no
backup entry appearing. -/
theorem c2_relink_discards_old_witness :
    (["h", "t"] ≠ ([] : FsPath)) ∧
    parentsOk (⟨[(["h"], Entry.dir), (["h", "t"], Entry.symlink ["h", "old"]),
      (["h", "old"], Entry.file "x")]⟩ : FS) ["h", "t"] = true ∧
    (⟨[(["h"], Entry.dir), (["h", "t"], Entry.symlink ["h", "old"]),
      (["h", "old"], Entry.file "x")]⟩ : FS).lstat ["h", "t"] =
      some (Entry.symlink ["h", "old"]) ∧
    (⟨[(["h"], Entry.dir), (["h", "t"], Entry.symlink ["h", "old"]),
      (["h", "old"], Entry.file "x")]⟩ : FS).pathExists ["h", "t"] = true ∧
    (create_symlink false
        (⟨[(["h"], Entry.dir), (["h", "t"], Entry.symlink ["h", "old"]),
          (["h", "old"], Entry.file "x")]⟩ : FS) ["s2"] ["h", "t"]).1.lstat
      ["h", "t"] = some (Entry.symlink ["s2"]) :=
  ⟨by decide, by decide, by decide, by decide,
    (c2_relink_discards_old false
        (⟨[(["h"], Entry.dir), (["h", "t"], Entry.symlink ["h", "old"]),
          (["h", "old"], Entry.file "x")]⟩ : FS) ["s2"] ["h", "t"] ["h", "old"]
        (by decide) (by decide) (by decide) (by decide)).2⟩

/-- C10: if the target pre-exists as a dangling symbolic link,
`link(source, target)` leaves the filesystem exactly as it was — the
link is not removed and no backup is created, because the existence
check follows the link and reports absence — and the subsequent
`os.symlink` fails on the occupied slot, so the only observable effect
is the logged failure, with the target left as the original dangling
link.  (This is the Unix branch; on Windows the `mklink` shell-out
fails with its status ignored, and a success line is logged instead.) -/
theorem c10_dangling_link (fs : FS) (source target d : FsPath)
    (ht : target ≠ []) (hp : parentsOk fs target = true)
    (hl : fs.lstat target = some (Entry.symlink d))
    (hex : fs.pathExists target = false) :
    create_symlink false fs source target =
      (fs, [Eff.log LogMsg.failedCreateSymlink]) := by
  simp only [create_symlink,
    createSymlinkBody_dangling fs source target d ht (parentsOk_spec fs target hp) hl hex, List.nil_append]

/-- C10 (witness): a dangling link `t -> gone` is left untouched and
only the failure is logged. -/
theorem c10_dangling_link_witness :
    (["t"] ≠ ([] : FsPath)) ∧
    parentsOk (⟨[(["t"], Entry.symlink ["gone"])]⟩ : FS) ["t"] = true ∧
    (⟨[(["t"], Entry.symlink ["gone"])]⟩ : FS).lstat ["t"] =
      some (Entry.symlink ["gone"]) ∧
    (⟨[(["t"], Entry.symlink ["gone"])]⟩ : FS).pathExists ["t"] = false ∧
    create_symlink false (⟨[(["t"], Entry.symlink ["gone"])]⟩ : FS) ["s"] ["t"] =
      ((⟨[(["t"], Entry.symlink ["gone"])]⟩ : FS),
        [Eff.log LogMsg.failedCreateSymlink]) :=
  ⟨by decide, by decide, by decide, by decide,
    c10_dangling_link (⟨[(["t"], Entry.symlink ["gone"])]⟩ : FS) ["s"] ["t"]
      ["gone"] (by decide) (by decide) (by decide) (by decide)⟩

/-- C3: idempotence.  Starting from a regular-file target with no
previous backup (ancestors in place, the link source a regular file
disjoint from the target and its backup path), running the linking
operation leaves the target a link to the source with the original
content saved at `target + ".backup"`; running it a second time changes
nothing at all — in particular the target still resolves to the source
and exactly the one backup entry from the first run exists, not two. -/
theorem c3_link_idempotent (iw : Bool) (fs : FS) (source target : FsPath)
    (c sc : String)
    (ht : target ≠ []) (hp : parentsOk fs target = true)
    (htf : fs.lstat target = some (Entry.file c))
    (hb : fs.lstat (backupPath target) = none)
    (hs : fs.lstat source = some (Entry.file sc))
    (hnts : ¬ (target <+: source))
    (hnbs : ¬ (backupPath target <+: source)) :
    (create_symlink iw fs source target).1.lstat target =
      some (Entry.symlink source) ∧
    (create_symlink iw fs source target).1.lstat (backupPath target) =
      some (Entry.file c) ∧
    ∀ q, (create_symlink iw (create_symlink iw fs source target).1
        source target).1.lstat q =
      (create_symlink iw fs source target).1.lstat q := by
  have hex : fs.pathExists target = true := pathExists_of_file fs target c htf
  have hnl : fs.islink target = false := islink_of_file fs target c htf
  have hbd : fs.isdir (backupPath target) = false :=
    isdir_of_lstat_none fs (backupPath target) hb
  have hrun1 := create_symlink_backup iw fs source target ht
    (parentsOk_spec fs target hp) hex hnl hbd (Or.inl ⟨c, htf⟩)
  simp only [hrun1]
  set fs1 : FS :=
    (fs.renameTree target (backupPath target)).set target (Entry.symlink source)
    with hfs1
  have f1t : fs1.lstat target = some (Entry.symlink source) := by
    rw [hfs1, lstat_set, if_pos rfl]
  have f1b : fs1.lstat (backupPath target) = some (Entry.file c) := by
    rw [hfs1, lstat_set, if_neg (backupPath_ne_target target ht), lstat_renameTree,
      if_pos (List.prefix_refl (backupPath target)), List.drop_length,
      List.append_nil]
    exact htf
  have hst : ¬ (source = target) := fun h => hnts (by rw [h])
  have f1s : fs1.lstat source = some (Entry.file sc) := by
    rw [hfs1, lstat_set, if_neg hst, lstat_renameTree, if_neg hnbs, if_neg hnts]
    exact hs
  have hp1 : ∀ q : FsPath, q ≠ [] → q <+: dirname target →
      fs1.lstat q = some Entry.dir := by
    intro q hne hq
    have hql : q.length ≤ (dirname target).length := hq.length_le
    have hlt := dirname_length_lt target ht
    have hqt : ¬ (q = target) := by
      intro h
      rw [h] at hql
      omega
    rw [hfs1, lstat_set, if_neg hqt, lstat_renameTree]
    rw [if_neg (fun h => backup_not_prefix_target target ht
      ((h.trans hq).trans ( List.dropLast_prefix target)))]
    rw [if_neg (fun h => target_not_prefix_dirname target ht (h.trans hq))]
    exact parentsOk_spec fs target hp q hne hq
  have hex1 : fs1.pathExists target = true := by
    simp [FS.pathExists, stat_link_file fs1 target source sc f1t f1s]
  have hrun2 := create_symlink_link iw fs1 source target source ht hp1 f1t hex1
  refine ⟨f1t, f1b, ?_⟩
  intro q
  simp only [hrun2]
  by_cases hq : q = target
  · rw [hq, lstat_set, if_pos rfl]
    exact f1t.symm
  · rw [lstat_set, if_neg hq, lstat_erase, if_neg hq]

/-- C3 (witness): a concrete double run over a regular-file target:
after both runs the target is a link to the source and the single
backup holds the original content. -/
theorem c3_link_idempotent_witness :
    (["h", "t"] ≠ ([] : FsPath)) ∧
    parentsOk (⟨[(["h"], Entry.dir), (["h", "t"], Entry.file "old"),
      (["h", "s"], Entry.file "new")]⟩ : FS) ["h", "t"] = true ∧
    (⟨[(["h"], Entry.dir), (["h", "t"], Entry.file "old"),
      (["h", "s"], Entry.file "new")]⟩ : FS).lstat ["h", "t"] =
      some (Entry.file "old") ∧
    ¬ (["h", "t"] <+: ["h", "s"]) ∧
    (create_symlink false
        (⟨[(["h"], Entry.dir), (["h", "t"], Entry.file "old"),
          (["h", "s"], Entry.file "new")]⟩ : FS) ["h", "s"] ["h", "t"]).1.lstat
      (backupPath ["h", "t"]) = some (Entry.file "old") :=
  ⟨by decide, by decide, by decide, by decide,
    (c3_link_idempotent false
        (⟨[(["h"], Entry.dir), (["h", "t"], Entry.file "old"),
          (["h", "s"], Entry.file "new")]⟩ : FS) ["h", "s"] ["h", "t"]
        "old" "new" (by decide) (by decide) (by decide) (by decide) (by decide)
        (by decide) (by decide)).2.1⟩

/-- C4: every exception raised inside `create_symlink`'s `try` body —
during parent-directory creation, removal/backup of an existing target,
or link creation — is caught by the `except` clause: the call returns
normally with the state reached so far and the failure logged, and
nothing propagates to the caller; on normal completion the success line
is logged instead. -/
theorem c4_link_failures_swallowed (iw : Bool) (fs : FS) (source target : FsPath) :
    (∀ fs1 effs,
      createSymlinkBody iw fs source target = PyOutcome.exn (fs1, effs) →
      create_symlink iw fs source target =
        (fs1, effs ++ [Eff.log LogMsg.failedCreateSymlink])) ∧
    (∀ fs1 effs,
      createSymlinkBody iw fs source target = PyOutcome.ok (fs1, effs) →
      create_symlink iw fs source target =
        (fs1, effs ++ [Eff.log (LogMsg.createdSymlink target source)])) := by
  constructor
  · intro fs1 effs h
    simp [create_symlink, h]
  · intro fs1 effs h
    simp [create_symlink, h]

/-- C4 (witness): a body that raises (dangling-link target) yields a
normal return with the failure logged. -/
theorem c4_link_failures_swallowed_witness :
    createSymlinkBody false (⟨[(["w"], Entry.symlink ["nowhere"])]⟩ : FS)
        ["a"] ["w"] =
      PyOutcome.exn ((⟨[(["w"], Entry.symlink ["nowhere"])]⟩ : FS), []) ∧
    create_symlink false (⟨[(["w"], Entry.symlink ["nowhere"])]⟩ : FS)
        ["a"] ["w"] =
      ((⟨[(["w"], Entry.symlink ["nowhere"])]⟩ : FS),
        [] ++ [Eff.log LogMsg.failedCreateSymlink]) :=
  ⟨by decide,
    (c4_link_failures_swallowed false
        (⟨[(["w"], Entry.symlink ["nowhere"])]⟩ : FS) ["a"] ["w"]).1
      (⟨[(["w"], Entry.symlink ["nowhere"])]⟩ : FS) [] (by decide)⟩

/-- C5: `run_command` runs the external process to completion and
returns a boolean: on exit code 0 it returns success having logged
nothing; on a non-zero exit the `CalledProcessError` is caught, the
command line and the error are logged, and failure is returned without
raising — so a failing external command never aborts the run. -/
theorem c5_run_command_contract (w : World) (command : List String) :
    (w.proc command = 0 →
      run_command w command = (true, [Eff.ran command])) ∧
    (w.proc command ≠ 0 →
      run_command w command =
        (false, [Eff.ran command, Eff.log (LogMsg.commandFailed command),
          Eff.log (LogMsg.commandError (w.proc command))])) := by
  constructor
  · intro h
    simp [run_command, subprocess_run_check, h]
  · intro h
    simp [run_command, subprocess_run_check, h]

/-- C5 (witness): a command exiting 1 is logged and reported as a
failure, without raising. -/
theorem c5_run_command_contract_witness :
    ((⟨fun _ => 1, fun _ => false⟩ : World).proc ["false"] ≠ 0) ∧
    run_command (⟨fun _ => 1, fun _ => false⟩ : World) ["false"] =
      (false, [Eff.ran ["false"], Eff.log (LogMsg.commandFailed ["false"]),
        Eff.log (LogMsg.commandError 1)]) :=
  ⟨by decide,
    (c5_run_command_contract (⟨fun _ => 1, fun _ => false⟩ : World)
      ["false"]).2 (by decide)⟩

theorem installExtensions_ran (w : World) :
    ∀ lines : List String,
      (installExtensions w lines).filter isRan =
        ((lines.map pyStrip).filter (fun e => !decide (e = ""))).map
          (fun e => Eff.ran ["code", "--install-extension", e]) := by
  intro lines
  induction lines with
  | nil => rfl
  | cons line rest ih =>
    by_cases h : pyStrip line = ""
    · simp [installExtensions, h, ih]
    · rcases Nat.eq_zero_or_pos
          (w.proc ["code", "--install-extension", pyStrip line]) with h0 | h0
      · simp [installExtensions, h, run_command, subprocess_run_check, h0,
          isRan, ih, List.filter_append]
      · have h1 : ¬ (w.proc ["code", "--install-extension", pyStrip line] = 0) := by
          omega
        simp [installExtensions, h, run_command, subprocess_run_check, h1,
          isRan, ih, List.filter_append]

/-- C8: the extensions file is optional.  If it does not exist at the
point `setup_vscode` checks for it, the extension sub-step performs
zero `subprocess.run` invocations and the step completes normally (no
exception aborts the following steps).  When it exists as a regular
file, the step completes normally having run exactly one
`code --install-extension` invocation per stripped non-blank line of
its content, blank lines skipped. -/
theorem c8_extensions_file_optional (env : Env) (w : World) (fs : FS) :
    ((vscodeLinkPhase env fs).1.pathExists (extensions_file env) = false →
      setup_vscode env w fs =
        PyOutcome.ok ((vscodeLinkPhase env fs).1,
          Eff.log LogMsg.settingUpVSCode :: (vscodeLinkPhase env fs).2)) ∧
    (∀ content,
      (vscodeLinkPhase env fs).1.stat (extensions_file env) =
        some (Entry.file content) →
      (setup_vscode env w fs =
        PyOutcome.ok ((vscodeLinkPhase env fs).1,
          Eff.log LogMsg.settingUpVSCode :: ((vscodeLinkPhase env fs).2 ++
            installExtensions w (pyLines content))) ∧
       (installExtensions w (pyLines content)).filter isRan =
         (((pyLines content).map pyStrip).filter (fun e => !decide (e = ""))).map
           (fun e => Eff.ran ["code", "--install-extension", e]))) := by
  constructor
  · intro h
    simp [setup_vscode, extensionPhase, h]
  · intro content hstat
    have hpe : (vscodeLinkPhase env fs).1.pathExists (extensions_file env) = true := by
      simp [FS.pathExists, hstat]
    refine ⟨?_, installExtensions_ran w (pyLines content)⟩
    simp [setup_vscode, extensionPhase, hpe, openFile, hstat]

/-- C8 (witness): a run whose dotfiles tree carries an extensions file
with two identifiers and a blank line issues exactly the two install
invocations. -/
theorem c8_extensions_file_optional_witness :
    ((vscodeLinkPhase (⟨["h"], ["d"], false, true⟩ : Env)
        (⟨[(["d", "vscode", "extensions.txt"],
          Entry.file "extA\n\nextB\n")]⟩ : FS)).1.stat
        (extensions_file (⟨["h"], ["d"], false, true⟩ : Env)) =
      some (Entry.file "extA\n\nextB\n")) ∧
    (installExtensions (⟨fun _ => 0, fun _ => true⟩ : World)
        (pyLines "extA\n\nextB\n")).filter isRan =
      [Eff.ran ["code", "--install-extension", "extA"],
       Eff.ran ["code", "--install-extension", "extB"]] :=
  ⟨by decide,
    by
      have h := ((c8_extensions_file_optional (⟨["h"], ["d"], false, true⟩ : Env)
          (⟨fun _ => 0, fun _ => true⟩ : World)
          (⟨[(["d", "vscode", "extensions.txt"],
            Entry.file "extA\n\nextB\n")]⟩ : FS)).2 "extA\n\nextB\n"
        (by decide)).2
      rw [h]
      decide⟩

theorem removeExistingStep_effs (fs : FS) (target : FsPath) :
    outcomeEffs (removeExistingStep fs target) = [] ∨
    outcomeEffs (removeExistingStep fs target) =
      [Eff.log (LogMsg.backedUp (backupPath target))] := by
  by_cases h1 : fs.pathExists target
  · by_cases h2 : fs.islink target
    · left
      simp [removeExistingStep, h1, h2, outcomeEffs]
    · cases h3 : shutil_move fs target (backupPath target) with
      | none =>
        left
        simp [removeExistingStep, backup_existing_config, h1, h2, h3, outcomeEffs]
      | some fs1 =>
        right
        simp [removeExistingStep, backup_existing_config, h1, h2, h3, outcomeEffs]
  · left
    simp [removeExistingStep, h1, outcomeEffs]

theorem createSymlinkBody_effs_mem (iw : Bool) (fs : FS) (source target : FsPath)
    (m : Eff) (hm : m ∈ outcomeEffs (createSymlinkBody iw fs source target)) :
    (∃ p, m = Eff.log (LogMsg.backedUp p)) ∨ (∃ sc, m = Eff.shell sc) := by
  unfold createSymlinkBody at hm
  cases hmk : fs.makedirs (dirname target) with
  | none =>
    simp only [hmk] at hm
    simp [outcomeEffs] at hm
  | some fs1 =>
    simp only [hmk] at hm
    cases hre : removeExistingStep fs1 target with
    | exn r =>
      simp only [hre] at hm
      have := removeExistingStep_effs fs1 target
      rw [hre] at this
      rcases this with h | h <;> simp [outcomeEffs] at h <;>
        simp [outcomeEffs, h] at hm
      · exact Or.inl ⟨backupPath target, hm⟩
    | ok r =>
      obtain ⟨fs2, effs⟩ := r
      simp only [hre] at hm
      have := removeExistingStep_effs fs1 target
      rw [hre] at this
      simp only [outcomeEffs] at this
      cases iw
      · simp only [Bool.false_eq_true, if_false] at hm
        cases hsl : fs2.symlink source target with
        | none =>
          simp only [hsl] at hm
          simp [outcomeEffs] at hm
          rcases this with h | h <;> rw [h] at hm
          · simp at hm
          · simp at hm
            exact Or.inl ⟨backupPath target, hm⟩
        | some fs3 =>
          simp only [hsl] at hm
          simp [outcomeEffs] at hm
          rcases this with h | h <;> rw [h] at hm
          · simp at hm
          · simp at hm
            exact Or.inl ⟨backupPath target, hm⟩
      · simp only [if_true] at hm
        simp [outcomeEffs] at hm
        rcases hm with hm | hm
        · rcases this with h | h <;> rw [h] at hm
          · simp at hm
          · simp at hm
            exact Or.inl ⟨backupPath target, hm⟩
        · right
          rw [hm]
          unfold mklinkEff
          by_cases hd : fs2.isdir source
          · exact ⟨ShellCmd.mklinkDir target source, by simp [hd]⟩
          · exact ⟨ShellCmd.mklinkFile target source, by simp [hd]⟩

theorem create_symlink_effs_mem (iw : Bool) (fs : FS) (source target : FsPath)
    (m : Eff) (hm : m ∈ (create_symlink iw fs source target).2) :
    (∃ p, m = Eff.log (LogMsg.backedUp p)) ∨
    m = Eff.log (LogMsg.createdSymlink target source) ∨
    m = Eff.log LogMsg.failedCreateSymlink ∨
    (∃ sc, m = Eff.shell sc) := by
  unfold create_symlink at hm
  cases hb : createSymlinkBody iw fs source target with
  | ok r =>
    rw [hb] at hm
    simp only [List.mem_append] at hm
    rcases hm with hm | hm
    · have := createSymlinkBody_effs_mem iw fs source target m (by rw [hb]; exact hm)
      tauto
    · simp at hm
      tauto
  | exn r =>
    rw [hb] at hm
    simp only [List.mem_append] at hm
    rcases hm with hm | hm
    · have := createSymlinkBody_effs_mem iw fs source target m (by rw [hb]; exact hm)
      tauto
    · simp at hm
      tauto

theorem installExtensions_effs_mem (w : World) :
    ∀ (lines : List String) (m : Eff), m ∈ installExtensions w lines →
      (∃ cmd, m = Eff.ran cmd) ∨ (∃ cmd, m = Eff.log (LogMsg.commandFailed cmd)) ∨
      (∃ n, m = Eff.log (LogMsg.commandError n)) := by
  intro lines
  induction lines with
  | nil =>
    intro m hm
    simp [installExtensions] at hm
  | cons l rest ih =>
    intro m hm
    by_cases h : pyStrip l = ""
    · rw [show installExtensions w (l :: rest) = installExtensions w rest from by
        simp [installExtensions, h]] at hm
      exact ih m hm
    · rw [show installExtensions w (l :: rest) =
          (run_command w ["code", "--install-extension", pyStrip l]).2 ++
            installExtensions w rest from by
        simp [installExtensions, h]] at hm
      rcases List.mem_append.mp hm with hm1 | hm1
      · rcases Nat.eq_zero_or_pos
            (w.proc ["code", "--install-extension", pyStrip l]) with h0 | h0
        · rw [show (run_command w ["code", "--install-extension", pyStrip l]).2 =
              [Eff.ran ["code", "--install-extension", pyStrip l]] from by
            simp [run_command, subprocess_run_check, h0]] at hm1
          simp at hm1
          exact Or.inl ⟨_, hm1⟩
        · have h1 : ¬ (w.proc ["code", "--install-extension", pyStrip l] = 0) := by
            omega
          rw [show (run_command w ["code", "--install-extension", pyStrip l]).2 =
              [Eff.ran ["code", "--install-extension", pyStrip l],
               Eff.log (LogMsg.commandFailed ["code", "--install-extension", pyStrip l]),
               Eff.log (LogMsg.commandError
                 (w.proc ["code", "--install-extension", pyStrip l]))] from by
            simp [run_command, subprocess_run_check, h1]] at hm1
          simp at hm1
          rcases hm1 with h2 | h2 | h2
          · exact Or.inl ⟨_, h2⟩
          · exact Or.inr (Or.inl ⟨_, h2⟩)
          · exact Or.inr (Or.inr ⟨_, h2⟩)
      · exact ih m hm1

theorem extensionPhase_payload_mem (w : World) (fs : FS) (p : FsPath)
    (e : List Eff)
    (he : extensionPhase w fs p = PyOutcome.ok e ∨
      extensionPhase w fs p = PyOutcome.exn e)
    (m : Eff) (hm : m ∈ e) :
    (∃ cmd, m = Eff.ran cmd) ∨ (∃ cmd, m = Eff.log (LogMsg.commandFailed cmd)) ∨
      (∃ n, m = Eff.log (LogMsg.commandError n)) := by
  by_cases h1 : fs.pathExists p
  · cases h2 : openFile fs p with
    | none =>
      rw [show extensionPhase w fs p = PyOutcome.exn [] from by
        simp [extensionPhase, h1, h2]] at he
      rcases he with he | he
      · cases he
      · cases he
        simp at hm
    | some content =>
      rw [show extensionPhase w fs p = PyOutcome.ok
          (installExtensions w (pyLines content)) from by
        simp [extensionPhase, h1, h2]] at he
      rcases he with he | he
      · cases he
        exact installExtensions_effs_mem w (pyLines content) m hm
      · cases he
  · rw [show extensionPhase w fs p = PyOutcome.ok [] from by
      simp [extensionPhase, h1]] at he
    rcases he with he | he
    · cases he
      simp at hm
    · cases he

theorem link_effs_weaken (iw : Bool) (fs : FS) (source target : FsPath) (m : Eff)
    (hm : m ∈ (create_symlink iw fs source target).2) :
    (∃ p, m = Eff.log (LogMsg.backedUp p)) ∨
    (∃ t s, m = Eff.log (LogMsg.createdSymlink t s)) ∨
    m = Eff.log LogMsg.failedCreateSymlink ∨
    (∃ sc, m = Eff.shell sc) := by
  rcases create_symlink_effs_mem iw fs source target m hm with ⟨p, h⟩ | h | h | ⟨sc, h⟩
  · exact Or.inl ⟨p, h⟩
  · exact Or.inr (Or.inl ⟨target, source, h⟩)
  · exact Or.inr (Or.inr (Or.inl h))
  · exact Or.inr (Or.inr (Or.inr ⟨sc, h⟩))

theorem vscodeLinkPhase_effs_mem (env : Env) (fs : FS) (m : Eff)
    (hm : m ∈ (vscodeLinkPhase env fs).2) :
    (∃ p, m = Eff.log (LogMsg.backedUp p)) ∨
    (∃ t s, m = Eff.log (LogMsg.createdSymlink t s)) ∨
    m = Eff.log LogMsg.failedCreateSymlink ∨
    (∃ sc, m = Eff.shell sc) := by
  have hshape : (vscodeLinkPhase env fs).2 =
      (create_symlink env.is_windows fs
        (env.dotfiles_path ++ ["vscode", "settings.json"])
        (vscode_config_path env ++ ["settings.json"])).2 ++
      (create_symlink env.is_windows
        (create_symlink env.is_windows fs
          (env.dotfiles_path ++ ["vscode", "settings.json"])
          (vscode_config_path env ++ ["settings.json"])).1
        (env.dotfiles_path ++ ["vscode", "keybindings.json"])
        (vscode_config_path env ++ ["keybindings.json"])).2 ++
      (create_symlink env.is_windows
        (create_symlink env.is_windows
          (create_symlink env.is_windows fs
            (env.dotfiles_path ++ ["vscode", "settings.json"])
            (vscode_config_path env ++ ["settings.json"])).1
          (env.dotfiles_path ++ ["vscode", "keybindings.json"])
          (vscode_config_path env ++ ["keybindings.json"])).1
        (env.dotfiles_path ++ ["vscode", "snippets"])
        (vscode_config_path env ++ ["snippets"])).2 := rfl
  rw [hshape] at hm
  rcases List.mem_append.mp hm with hm1 | hm1
  · rcases List.mem_append.mp hm1 with hm2 | hm2
    · exact link_effs_weaken _ _ _ _ m hm2
    · exact link_effs_weaken _ _ _ _ m hm2
  · exact link_effs_weaken _ _ _ _ m hm1

theorem setup_vscode_shape (env : Env) (w : World) (fs : FS) :
    ∃ e2 : List Eff,
      (extensionPhase w (vscodeLinkPhase env fs).1 (extensions_file env) =
          PyOutcome.ok e2 ∨
        extensionPhase w (vscodeLinkPhase env fs).1 (extensions_file env) =
          PyOutcome.exn e2) ∧
      (setup_vscode env w fs = PyOutcome.ok ((vscodeLinkPhase env fs).1,
          Eff.log LogMsg.settingUpVSCode :: ((vscodeLinkPhase env fs).2 ++ e2)) ∨
        setup_vscode env w fs = PyOutcome.exn ((vscodeLinkPhase env fs).1,
          Eff.log LogMsg.settingUpVSCode :: ((vscodeLinkPhase env fs).2 ++ e2))) := by
  cases hep : extensionPhase w (vscodeLinkPhase env fs).1 (extensions_file env) with
  | ok e2 =>
    refine ⟨e2, Or.inl rfl, Or.inl ?_⟩
    simp only [setup_vscode, hep]
  | exn e2 =>
    refine ⟨e2, Or.inr rfl, Or.inr ?_⟩
    simp only [setup_vscode, hep]

theorem benignEff_of_linkShape (m : Eff)
    (h : (∃ p, m = Eff.log (LogMsg.backedUp p)) ∨
      (∃ t s, m = Eff.log (LogMsg.createdSymlink t s)) ∨
      m = Eff.log LogMsg.failedCreateSymlink ∨ (∃ sc, m = Eff.shell sc)) :
    benignEff m := by
  unfold benignEff
  rcases h with h | h | h | h
  · exact Or.inr (Or.inr (Or.inr (Or.inr (Or.inl h))))
  · exact Or.inr (Or.inr (Or.inr (Or.inr (Or.inr (Or.inl h)))))
  · exact Or.inr (Or.inr (Or.inr (Or.inr (Or.inr (Or.inr (Or.inl h))))))
  · exact Or.inr (Or.inr (Or.inr (Or.inr (Or.inr (Or.inr (Or.inr (Or.inl h)))))))

theorem benignEff_of_cmdShape (m : Eff)
    (h : (∃ cmd, m = Eff.ran cmd) ∨ (∃ cmd, m = Eff.log (LogMsg.commandFailed cmd)) ∨
      (∃ n, m = Eff.log (LogMsg.commandError n))) :
    benignEff m := by
  unfold benignEff
  rcases h with h | h | h
  · exact Or.inr (Or.inr (Or.inr (Or.inr (Or.inr (Or.inr (Or.inr (Or.inr (Or.inl h))))))))
  · exact Or.inr (Or.inr (Or.inr (Or.inr (Or.inr (Or.inr (Or.inr (Or.inr (Or.inr (Or.inl h)))))))))
  · exact Or.inr (Or.inr (Or.inr (Or.inr (Or.inr (Or.inr (Or.inr (Or.inr (Or.inr (Or.inr h)))))))))

set_option maxHeartbeats 2000000 in
theorem setup_all_trace (env : Env) (w : World) (fs : FS) (fsA : FS)
    (hmk : fs.makedirs env.dotfiles_path = some fsA) :
    ∃ rest : List Eff,
      outcomeEffs (setup_all env w fs) =
        Eff.log LogMsg.startingSetup :: Eff.log LogMsg.settingUpGit :: rest ∧
      Eff.log LogMsg.settingUpVSCode ∈ rest ∧
      ∀ m ∈ rest, benignEff m := by
  obtain ⟨e2, hee, hsv⟩ := setup_vscode_shape env w (setup_git env fsA).1
  have hmem2 : ∀ m ∈ e2,
      (∃ cmd, m = Eff.ran cmd) ∨ (∃ cmd, m = Eff.log (LogMsg.commandFailed cmd)) ∨
        (∃ n, m = Eff.log (LogMsg.commandError n)) :=
    fun m hm => extensionPhase_payload_mem w _ _ e2 hee m hm
  have hgit : setup_git env fsA =
      ((create_symlink env.is_windows fsA (env.dotfiles_path ++ ["git", ".gitconfig"])
          (env.home ++ [".gitconfig"])).1,
        Eff.log LogMsg.settingUpGit ::
          (create_symlink env.is_windows fsA
            (env.dotfiles_path ++ ["git", ".gitconfig"])
            (env.home ++ [".gitconfig"])).2) := rfl
  rcases hsv with hsv | hsv
  · refine ⟨(create_symlink env.is_windows fsA
        (env.dotfiles_path ++ ["git", ".gitconfig"])
        (env.home ++ [".gitconfig"])).2 ++
      ((Eff.log LogMsg.settingUpVSCode ::
        ((vscodeLinkPhase env (setup_git env fsA).1).2 ++ e2)) ++
        (if env.is_windows then
          [Eff.log LogMsg.setupComplete, Eff.log (LogMsg.windowsNote 0),
            Eff.log (LogMsg.windowsNote 1)]
          else [Eff.log LogMsg.setupComplete])), ?_, ?_, ?_⟩
    · simp only [setup_all, hmk, hsv, outcomeEffs]
      rw [hgit]
      simp [List.cons_append, List.append_assoc]
    · simp
    · intro m hm
      rcases List.mem_append.mp hm with h1 | h1
      · exact benignEff_of_linkShape m (link_effs_weaken _ _ _ _ m h1)
      · rcases List.mem_append.mp h1 with h2 | h2
        · rcases List.mem_cons.mp h2 with h3 | h3
          · exact Or.inl h3
          · rcases List.mem_append.mp h3 with h4 | h4
            · exact benignEff_of_linkShape m (vscodeLinkPhase_effs_mem _ _ m h4)
            · exact benignEff_of_cmdShape m (hmem2 m h4)
        · cases henv : env.is_windows <;> rw [henv] at h2 <;> simp at h2
          · exact Or.inr (Or.inl h2)
          · rcases h2 with h2 | h2 | h2
            · exact Or.inr (Or.inl h2)
            · exact Or.inr (Or.inr (Or.inl h2))
            · exact Or.inr (Or.inr (Or.inr (Or.inl h2)))
  · refine ⟨(create_symlink env.is_windows fsA
        (env.dotfiles_path ++ ["git", ".gitconfig"])
        (env.home ++ [".gitconfig"])).2 ++
      (Eff.log LogMsg.settingUpVSCode ::
        ((vscodeLinkPhase env (setup_git env fsA).1).2 ++ e2)), ?_, ?_, ?_⟩
    · simp only [setup_all, hmk, hsv, outcomeEffs]
      rw [hgit]
      simp [List.cons_append, List.append_assoc]
    · simp
    · intro m hm
      rcases List.mem_append.mp hm with h1 | h1
      · exact benignEff_of_linkShape m (link_effs_weaken _ _ _ _ m h1)
      · rcases List.mem_cons.mp h1 with h3 | h3
        · exact Or.inl h3
        · rcases List.mem_append.mp h3 with h4 | h4
          · exact benignEff_of_linkShape m (vscodeLinkPhase_effs_mem _ _ m h4)
          · exact benignEff_of_cmdShape m (hmem2 m h4)

theorem extensionPhase_ok (w : World) (fs : FS) (p : FsPath)
    (hext : fs.pathExists p = false ∨ ∃ c, fs.stat p = some (Entry.file c)) :
    ∃ e, extensionPhase w fs p = PyOutcome.ok e := by
  rcases hext with hab | ⟨c, hc⟩
  · exact ⟨[], by simp [extensionPhase, hab]⟩
  · have hpe : fs.pathExists p = true := by simp [FS.pathExists, hc]
    exact ⟨installExtensions w (pyLines c), by simp [extensionPhase, hpe, openFile, hc]⟩

/-- C6: exit behaviour of the entry point.  If the dotfiles root cannot
be created, the run aborts with exit code 1.  If it can, and the
optional extensions path is (at the moment it is read) either absent or
a regular file, the process exits 0 — whatever the outcomes of the
individual links and external commands were: link failures are
swallowed inside `create_symlink` and command failures inside
`run_command`, so they never surface as a non-zero exit.  (Failure to
resolve the home directory happens before anything modelled here and is
likewise fatal; the oracle models every spawned command as running to
completion with an exit code.) -/
theorem c6_exit_codes (home : FsPath) (dov : Option FsPath)
    (iw im : Bool) (w : World) (fs : FS) :
    (fs.makedirs (mkEnv home dov iw im).dotfiles_path = none →
      (main home dov iw im w fs).1 = 1) ∧
    (∀ fsA, fs.makedirs (mkEnv home dov iw im).dotfiles_path = some fsA →
      ((vscodeLinkPhase (mkEnv home dov iw im)
          (setup_git (mkEnv home dov iw im) fsA).1).1.pathExists
          (extensions_file (mkEnv home dov iw im)) = false ∨
        (∃ c, (vscodeLinkPhase (mkEnv home dov iw im)
          (setup_git (mkEnv home dov iw im) fsA).1).1.stat
          (extensions_file (mkEnv home dov iw im)) = some (Entry.file c))) →
      (main home dov iw im w fs).1 = 0) := by
  constructor
  · intro h
    simp [main, setup_all, h]
  · intro fsA h hext
    obtain ⟨e, hep⟩ := extensionPhase_ok w _ _ hext
    have hsv : setup_vscode (mkEnv home dov iw im) w
        (setup_git (mkEnv home dov iw im) fsA).1 =
      PyOutcome.ok ((vscodeLinkPhase (mkEnv home dov iw im)
          (setup_git (mkEnv home dov iw im) fsA).1).1,
        Eff.log LogMsg.settingUpVSCode ::
          ((vscodeLinkPhase (mkEnv home dov iw im)
            (setup_git (mkEnv home dov iw im) fsA).1).2 ++ e)) := by
      simp only [setup_vscode, hep]
    simp [main, setup_all, h, hsv]

/-- C6 (witness): a run over an empty filesystem with creatable
dotfiles root and no extensions file exits 0. -/
theorem c6_exit_codes_witness :
    ((⟨[]⟩ : FS).makedirs (mkEnv ["h"] (some ["d"]) false false).dotfiles_path =
      some (⟨[(["d"], Entry.dir)]⟩ : FS)) ∧
    ((vscodeLinkPhase (mkEnv ["h"] (some ["d"]) false false)
        (setup_git (mkEnv ["h"] (some ["d"]) false false)
          (⟨[(["d"], Entry.dir)]⟩ : FS)).1).1.pathExists
        (extensions_file (mkEnv ["h"] (some ["d"]) false false)) = false) ∧
    (main ["h"] (some ["d"]) false false
      (⟨fun _ => 0, fun _ => false⟩ : World) (⟨[]⟩ : FS)).1 = 0 :=
  ⟨by decide, by decide,
    (c6_exit_codes ["h"] (some ["d"]) false false
        (⟨fun _ => 0, fun _ => false⟩ : World) (⟨[]⟩ : FS)).2
      (⟨[(["d"], Entry.dir)]⟩ : FS) (by decide) (Or.inl (by decide))⟩

/-- C7: counterexample.  On a macOS environment where the shell,
terminal and package steps would all apply, a full `setup_all` run
never emits the package-install, shell-config or terminal-config
headers — those calls are commented out — while the git header does
appear. -/
theorem c7_counterexample :
    Eff.log LogMsg.installingPackages ∉
      outcomeEffs (setup_all (⟨["h"], ["h", "dotfiles"], false, true⟩ : Env)
        (⟨fun _ => 0, fun _ => true⟩ : World) (⟨[]⟩ : FS)) ∧
    Eff.log LogMsg.settingUpZsh ∉
      outcomeEffs (setup_all (⟨["h"], ["h", "dotfiles"], false, true⟩ : Env)
        (⟨fun _ => 0, fun _ => true⟩ : World) (⟨[]⟩ : FS)) ∧
    Eff.log LogMsg.settingUpIterm ∉
      outcomeEffs (setup_all (⟨["h"], ["h", "dotfiles"], false, true⟩ : Env)
        (⟨fun _ => 0, fun _ => true⟩ : World) (⟨[]⟩ : FS)) ∧
    Eff.log LogMsg.settingUpGit ∈
      outcomeEffs (setup_all (⟨["h"], ["h", "dotfiles"], false, true⟩ : Env)
        (⟨fun _ => 0, fun _ => true⟩ : World) (⟨[]⟩ : FS)) := by
  decide

/-- C7 (amended): whenever the dotfiles root can be ensured,
`setup_all` executes, in a fixed order, exactly its two enabled steps —
git config first, then editor config — and nothing of the
package-install, shell-config or terminal-config routines appears in
the run's events (their invocations are commented out in `setup_all`).
The OS-gated routines themselves honour their gates when invoked
directly: `setup_zsh` is a no-op on Windows and `setup_iterm` is a
no-op off macOS. -/
theorem c7_fixed_step_list :
    (∀ (env : Env) (w : World) (fs fsA : FS),
      fs.makedirs env.dotfiles_path = some fsA →
      ∃ rest : List Eff,
        outcomeEffs (setup_all env w fs) =
          Eff.log LogMsg.startingSetup :: Eff.log LogMsg.settingUpGit :: rest ∧
        Eff.log LogMsg.settingUpVSCode ∈ rest ∧
        Eff.log LogMsg.installingPackages ∉ outcomeEffs (setup_all env w fs) ∧
        Eff.log LogMsg.settingUpZsh ∉ outcomeEffs (setup_all env w fs) ∧
        Eff.log LogMsg.settingUpIterm ∉ outcomeEffs (setup_all env w fs)) ∧
    (∀ (env : Env) (fs : FS), env.is_windows = true →
      setup_zsh env fs = (fs, [])) ∧
    (∀ (env : Env) (fs : FS), env.is_macos = false →
      setup_iterm env fs = (fs, [])) := by
  refine ⟨?_, ?_, ?_⟩
  · intro env w fs fsA hmk
    obtain ⟨rest, htr, hvs, hall⟩ := setup_all_trace env w fs fsA hmk
    have habs : ∀ x : LogMsg,
        x = LogMsg.installingPackages ∨ x = LogMsg.settingUpZsh ∨
          x = LogMsg.settingUpIterm →
        Eff.log x ∉ outcomeEffs (setup_all env w fs) := by
      intro x hx hin
      rw [htr] at hin
      rcases List.mem_cons.mp hin with h | h
      · rcases hx with h1 | h1 | h1 <;> subst h1 <;> simp at h
      · rcases List.mem_cons.mp h with h | h
        · rcases hx with h1 | h1 | h1 <;> subst h1 <;> simp at h
        · have hb := hall _ h
          unfold benignEff at hb
          rcases hb with h1 | h1 | h1 | h1 | ⟨p, h1⟩ | ⟨t, s, h1⟩ | h1 | ⟨sc, h1⟩ |
              ⟨cmd, h1⟩ | ⟨cmd, h1⟩ | ⟨n, h1⟩ <;>
            rcases hx with h2 | h2 | h2 <;> subst h2 <;> simp at h1
    exact ⟨rest, htr, hvs, habs _ (Or.inl rfl), habs _ (Or.inr (Or.inl rfl)),
      habs _ (Or.inr (Or.inr rfl))⟩
  · intro env fs h
    simp [setup_zsh, h]
  · intro env fs h
    simp [setup_iterm, h]

/-- C7 (witness): on a Windows environment the gated routines are
no-ops, and a concrete full run never emits the shell-config header. -/
theorem c7_fixed_step_list_witness :
    ((⟨["x"], ["x", "df"], true, false⟩ : Env).is_windows = true) ∧
    setup_zsh (⟨["x"], ["x", "df"], true, false⟩ : Env) (⟨[]⟩ : FS) =
      ((⟨[]⟩ : FS), []) ∧
    ((⟨["x"], ["x", "df"], true, false⟩ : Env).is_macos = false) ∧
    setup_iterm (⟨["x"], ["x", "df"], true, false⟩ : Env) (⟨[]⟩ : FS) =
      ((⟨[]⟩ : FS), []) ∧
    Eff.log LogMsg.settingUpZsh ∉
      outcomeEffs (setup_all (⟨["x"], ["x", "df"], true, false⟩ : Env)
        (⟨fun _ => 0, fun _ => false⟩ : World) (⟨[]⟩ : FS)) :=
  ⟨rfl, c7_fixed_step_list.2.1 (⟨["x"], ["x", "df"], true, false⟩ : Env) (⟨[]⟩ : FS) rfl,
    rfl, c7_fixed_step_list.2.2 (⟨["x"], ["x", "df"], true, false⟩ : Env) (⟨[]⟩ : FS) rfl,
    (c7_fixed_step_list.1 (⟨["x"], ["x", "df"], true, false⟩ : Env)
        (⟨fun _ => 0, fun _ => false⟩ : World) (⟨[]⟩ : FS)
        (⟨[(["x", "df"], Entry.dir), (["x"], Entry.dir)]⟩ : FS) (by decide)).elim
      (fun rest h => h.2.2.2.1)⟩

theorem setup_vscode_obj_eq (self : Env) (w : World) (fs : FS) :
    setup_vscode_obj self w fs = (self, setup_vscode self w fs) := by
  simp only [setup_vscode_obj, setup_vscode, create_symlink_obj, vscodeLinkPhase]
  split <;> rename_i e2 heq <;> simp only [heq]

/-- C9: the environment record — home directory, dotfiles directory and
the OS-kind flags — is resolved once at startup and never mutated by
any setup step or linking operation: in the attribute-threaded reading
of the class, every method hands back exactly the attribute record it
received (none of them assigns an attribute), the threaded `setup_all`
computes the same outcome as the direct one, and `main` derives the
record it uses exactly once, via `mkEnv`. -/
theorem c9_environment_immutable :
    (∀ (self : Env) (fs : FS) (source target : FsPath),
      (create_symlink_obj self fs source target).1 = self) ∧
    (∀ (self : Env) (fs : FS), (setup_git_obj self fs).1 = self) ∧
    (∀ (self : Env) (w : World) (fs : FS),
      (setup_vscode_obj self w fs).1 = self) ∧
    (∀ (self : Env) (fs : FS), (setup_zsh_obj self fs).1 = self) ∧
    (∀ (self : Env) (fs : FS), (setup_iterm_obj self fs).1 = self) ∧
    (∀ (self : Env) (w : World) (fs : FS),
      (install_packages_obj self w fs).1 = self) ∧
    (∀ (self : Env) (w : World) (fs : FS),
      setup_all_obj self w fs = (self, setup_all self w fs)) ∧
    (∀ (home : FsPath) (dov : Option FsPath) (iw im : Bool) (w : World) (fs : FS),
      main home dov iw im w fs =
        match setup_all (mkEnv home dov iw im) w fs with
        | PyOutcome.ok r => (0, r.1, r.2)
        | PyOutcome.exn r => (1, r.1, r.2)) := by
  have hcomb : ∀ (self : Env) (w : World) (fs : FS),
      setup_all_obj self w fs = (self, setup_all self w fs) := by
    intro self w fs
    unfold setup_all_obj setup_all
    cases hmk : fs.makedirs self.dotfiles_path with
    | none => rfl
    | some fs1 =>
      have hg : setup_git_obj self fs1 = (self, setup_git self fs1) := rfl
      dsimp only
      rw [hg, setup_vscode_obj_eq]
      dsimp only
      cases hsv : setup_vscode self w (setup_git self fs1).1 with
      | ok r =>
        obtain ⟨fs3, ev⟩ := r
        rfl
      | exn r =>
        obtain ⟨fs3, ev⟩ := r
        rfl
  refine ⟨fun self fs source target => rfl, fun self fs => rfl,
    fun self w fs => by rw [setup_vscode_obj_eq], ?_, ?_,
    fun self w fs => rfl, hcomb, ?_⟩
  · intro self fs
    unfold setup_zsh_obj
    split <;> rfl
  · intro self fs
    unfold setup_iterm_obj
    split <;> rfl
  · intro home dov iw im w fs
    unfold main
    dsimp only
    cases hsa : setup_all (mkEnv home dov iw im) w fs with
    | ok r =>
      obtain ⟨fs1, effs⟩ := r
      rfl
    | exn r =>
      obtain ⟨fs1, effs⟩ := r
      rfl

end Dotfiles
